import Mathlib

/-!
Verification of the whisperdesk quote-review / document-synchronization core.

This file shallowly embeds the relevant TypeScript modules:

* `src/renderer/contexts/types.ts` (the quote-review reducer),
* `src/renderer/features/quote-review/hooks/useBoundaryMutation.ts`,
* `src/renderer/features/quote-review/hooks/useQuoteCreation.ts` (`parseReference`),
* `src/renderer/features/quote-review/hooks/useParagraphMerge.ts` (`previewMerge`),
* `src/renderer/features/quote-review/hooks/useInterjectionDetection.ts`,
* `src/renderer/features/document/history/documentHistory.ts` (`pruneEventLog`),
* `src/renderer/features/document/bridge/astTipTapConverter.ts`,

and proves (or refutes) the frozen claims about them.

Modelling conventions:

* JavaScript strings are Lean `String`s; character offsets are `Int`
  (all offsets produced by the app are integers).
* Confidence scores and TipTap numeric attributes are `Rat`
  (exact; order-faithful for the finitely many decimal constants involved).
* JavaScript `Set` insertion-order semantics are modelled with duplicate-free
  lists; `Map` iteration order with association lists.
* Impure id minting (`createNodeId` from `../events`, a module not present in
  the sources) is modelled by threading an id supply `Nat → String` and a
  counter; `createTimestamp` and `Date.now()` are explicit parameters.
* `undefined`/`null`-able fields become `Option`; the JavaScript truthiness
  of `||` / `??` is modelled explicitly where the source uses it.
-/

namespace WhisperDesk

/-- Whitespace class used by JavaScript `\s`, `String.prototype.trim` and
friends: ASCII whitespace plus the Unicode space separators. -/
def jsIsSpace (c : Char) : Bool :=
  c.toNat = 0x20 || c.toNat = 0x09 || c.toNat = 0x0a || c.toNat = 0x0b ||
  c.toNat = 0x0c || c.toNat = 0x0d || c.toNat = 0xa0 || c.toNat = 0x1680 ||
  (0x2000 ≤ c.toNat && c.toNat ≤ 0x200a) ||
  c.toNat = 0x2028 || c.toNat = 0x2029 || c.toNat = 0x202f ||
  c.toNat = 0x205f || c.toNat = 0x3000 || c.toNat = 0xfeff

/-- Trim on character lists: drop leading and trailing JS whitespace. -/
def jsTrimList (l : List Char) : List Char :=
  ((l.dropWhile jsIsSpace).reverse.dropWhile jsIsSpace).reverse

/-- JavaScript `String.prototype.trim`. -/
def jsTrim (s : String) : String :=
  ⟨jsTrimList s.data⟩

/-- JavaScript `a || b` for strings (empty string is falsy). -/
def jsOrStr (a : Option String) (b : String) : String :=
  match a with
  | some s => if s = "" then b else s
  | none => b

/-- JavaScript `a || b` for an optional string default (used for
`title || existingRoot?.title` where both sides may be `undefined`). -/
def jsOrStrOpt (a : Option String) (b : Option String) : Option String :=
  match a with
  | some s => if s = "" then b else some s
  | none => b

/-- JavaScript `a || b` for numbers (`0` is falsy). -/
def jsOrRat (a : Option Rat) (b : Rat) : Rat :=
  match a with
  | some q => if q = 0 then b else q
  | none => b

/-- JavaScript `a || b` for booleans. -/
def jsOrBool (a : Option Bool) (b : Bool) : Bool :=
  match a with
  | some x => x || b
  | none => b

/-- JavaScript `Set.prototype.add` on an insertion-ordered duplicate-free
list model of `Set`. -/
def setAdd (l : List String) (x : String) : List String :=
  if x ∈ l then l else l ++ [x]

/-- ASCII letter class `[A-Za-z]`. -/
def isAsciiLetter (c : Char) : Bool :=
  ('A' ≤ c && c ≤ 'Z') || ('a' ≤ c && c ≤ 'z')

/-- ASCII digit class `\d` (JavaScript `\d` is exactly `[0-9]`). -/
def isAsciiDigit (c : Char) : Bool :=
  '0' ≤ c && c ≤ '9'

/-- JavaScript `new Set(array)`: keep the first occurrence of each element. -/
def setOfList (l : List String) : List String :=
  l.foldl setAdd []

-- ===========================================================================
-- Quote review data (src/renderer/types/quoteReview.ts)
-- ===========================================================================

/-- Quote item in the review list (`QuoteReviewItem`). -/
structure QuoteReviewItem where
  id : String
  text : String
  reference : Option String := none
  isNonBiblical : Bool := false
  isReviewed : Bool := false
  interjections : Option (List String) := none
  startOffset : Option Int := none
  endOffset : Option Int := none
  paragraphId : Option String := none
  deriving Repr, DecidableEq

/-- Partial update to a `QuoteReviewItem` (`Partial<QuoteReviewItem>` in the
source): each present field overrides the corresponding field by object
spread `{ ...q, ...updates }`. -/
structure QuoteReviewItemPatch where
  id : Option String := none
  text : Option String := none
  reference : Option (Option String) := none
  isNonBiblical : Option Bool := none
  isReviewed : Option Bool := none
  interjections : Option (Option (List String)) := none
  startOffset : Option (Option Int) := none
  endOffset : Option (Option Int) := none
  paragraphId : Option (Option String) := none
  deriving Repr, DecidableEq

/-- Object spread `{ ...q, ...updates }` for quote items. -/
def applyPatch (q : QuoteReviewItem) (u : QuoteReviewItemPatch) : QuoteReviewItem where
  id := u.id.getD q.id
  text := u.text.getD q.text
  reference := u.reference.getD q.reference
  isNonBiblical := u.isNonBiblical.getD q.isNonBiblical
  isReviewed := u.isReviewed.getD q.isReviewed
  interjections := u.interjections.getD q.interjections
  startOffset := u.startOffset.getD q.startOffset
  endOffset := u.endOffset.getD q.endOffset
  paragraphId := u.paragraphId.getD q.paragraphId

/-- Which edge of a quote boundary is being dragged (`'start' | 'end'`). -/
inductive DragEdge where
  | dragStart
  | dragEnd
  deriving Repr, DecidableEq

/-- Review state slice (`QuoteReviewState`). -/
structure QuoteReviewState where
  isReviewModeActive : Bool
  focusedQuoteId : Option String
  reviewedQuoteIds : List String
  panelOpen : Bool
  panelWidth : Int
  bannerDismissed : Bool
  deriving Repr, DecidableEq

/-- Boundary edit mode slice (`BoundaryEditModeState`). -/
structure BoundaryEditModeState where
  isActive : Bool
  quoteId : Option String
  previewStartOffset : Option Int
  previewEndOffset : Option Int
  lastChangeTimestamp : Option Int
  deriving Repr, DecidableEq

/-- Boundary drag slice (`QuoteBoundaryDragState`). -/
structure QuoteBoundaryDragState where
  isDragging : Bool
  edge : Option DragEdge
  originalOffset : Int
  currentOffset : Int
  quoteId : Option String
  wouldMergeParagraphs : Bool
  paragraphsToMerge : List String
  deriving Repr, DecidableEq

/-- Result from Bible verse lookup (`BibleLookupResult`). -/
structure BibleLookupResult where
  success : Bool
  verseText : Option String := none
  normalizedReference : Option String := none
  book : Option String := none
  chapter : Option Int := none
  verseStart : Option Int := none
  verseEnd : Option Int := none
  translation : Option String := none
  error : Option String := none
  deriving Repr, DecidableEq

/-- Selection range inside the document (`QuoteCreationState['selectedRange']`). -/
structure SelectedRange where
  startNodeId : String
  startOffset : Int
  endNodeId : String
  endOffset : Int
  deriving Repr, DecidableEq

/-- Quote creation slice (`QuoteCreationState`). -/
structure QuoteCreationState where
  isCreating : Bool
  selectedText : String
  selectedRange : Option SelectedRange
  referenceInput : String
  lookupResult : Option BibleLookupResult
  isLookingUp : Bool
  isNonBiblical : Bool
  spannedParagraphIds : List String
  deriving Repr, DecidableEq

/-- Detected interjection candidate (`InterjectionCandidate`). -/
structure InterjectionCandidate where
  text : String
  startOffset : Int
  endOffset : Int
  confirmed : Bool
  rejected : Bool
  confidence : Rat
  context : Option String := none
  deriving Repr, DecidableEq

/-- Interjection edit slice (`InterjectionEditState`). -/
structure InterjectionEditState where
  isActive : Bool
  quoteId : Option String
  pendingCandidates : List InterjectionCandidate
  selectedText : Option String
  selectionRange : Option (Int × Int)
  deriving Repr, DecidableEq

/-- Panel filter mode (`QuotePanelFilterMode`). -/
inductive QuotePanelFilterMode where
  | all
  | unverified
  | byBook
  deriving Repr, DecidableEq

/-- Panel filter slice (`QuotePanelFilterState`). -/
structure QuotePanelFilterState where
  mode : QuotePanelFilterMode
  selectedBook : Option String
  searchQuery : String
  deriving Repr, DecidableEq

/-- Persisted review state (`PersistedQuoteReviewState`). -/
structure PersistedQuoteReviewState where
  panelOpen : Bool
  panelWidth : Int
  reviewedQuoteIds : List String
  bannerDismissed : Bool
  deriving Repr, DecidableEq

/-- Whole quote-review context state (`QuoteReviewContextState`). -/
structure QuoteReviewContextState where
  quotes : List QuoteReviewItem
  review : QuoteReviewState
  boundaryEdit : BoundaryEditModeState
  boundaryDrag : QuoteBoundaryDragState
  creation : QuoteCreationState
  interjectionEdit : InterjectionEditState
  panelFilter : QuotePanelFilterState
  deriving Repr, DecidableEq

/-- Constant `DEFAULT_PANEL_WIDTH` from `quoteReview.ts`. -/
def DEFAULT_PANEL_WIDTH : Int := 320

/-- Constant `BOUNDARY_CHANGE_DEBOUNCE_MS` from `quoteReview.ts`. -/
def BOUNDARY_CHANGE_DEBOUNCE_MS : Nat := 500

/-- Initial `review` slice (`initialReviewState`). -/
def initialReviewState : QuoteReviewState where
  isReviewModeActive := false
  focusedQuoteId := none
  reviewedQuoteIds := []
  panelOpen := false
  panelWidth := DEFAULT_PANEL_WIDTH
  bannerDismissed := false

/-- Initial `boundaryEdit` slice (`initialBoundaryEditState`). -/
def initialBoundaryEditState : BoundaryEditModeState where
  isActive := false
  quoteId := none
  previewStartOffset := none
  previewEndOffset := none
  lastChangeTimestamp := none

/-- Initial `boundaryDrag` slice (`initialBoundaryDragState`). -/
def initialBoundaryDragState : QuoteBoundaryDragState where
  isDragging := false
  edge := none
  originalOffset := 0
  currentOffset := 0
  quoteId := none
  wouldMergeParagraphs := false
  paragraphsToMerge := []

/-- Initial `creation` slice (`initialCreationState`). -/
def initialCreationState : QuoteCreationState where
  isCreating := false
  selectedText := ""
  selectedRange := none
  referenceInput := ""
  lookupResult := none
  isLookingUp := false
  isNonBiblical := false
  spannedParagraphIds := []

/-- Initial `interjectionEdit` slice (`initialInterjectionEditState`). -/
def initialInterjectionEditState : InterjectionEditState where
  isActive := false
  quoteId := none
  pendingCandidates := []
  selectedText := none
  selectionRange := none

/-- Initial `panelFilter` slice (`initialPanelFilterState`). -/
def initialPanelFilterState : QuotePanelFilterState where
  mode := .all
  selectedBook := none
  searchQuery := ""

/-- Initial context state (`initialState`). -/
def initialState : QuoteReviewContextState where
  quotes := []
  review := initialReviewState
  boundaryEdit := initialBoundaryEditState
  boundaryDrag := initialBoundaryDragState
  creation := initialCreationState
  interjectionEdit := initialInterjectionEditState
  panelFilter := initialPanelFilterState

/-- Closed action set of the quote review reducer (`QuoteReviewAction`). -/
inductive QuoteReviewAction where
  | setQuotes (quotes : List QuoteReviewItem)
  | addQuote (quote : QuoteReviewItem)
  | updateQuote (quoteId : String) (updates : QuoteReviewItemPatch)
  | removeQuote (quoteId : String)
  | setReviewModeActive (active : Bool)
  | setFocusedQuote (quoteId : Option String)
  | markQuoteReviewed (quoteId : String)
  | togglePanel
  | setPanelOpen (opn : Bool)
  | setPanelWidth (width : Int)
  | dismissBanner
  | enterBoundaryEditMode (quoteId : String)
  | exitBoundaryEditMode
  | updateBoundaryPreview (startOffset : Option Int) (endOffset : Option Int)
  | commitBoundaryChange
  | startBoundaryDrag (quoteId : String) (edge : DragEdge) (offset : Int)
  | updateBoundaryDrag (offset : Int) (wouldMerge : Bool) (paragraphsToMerge : List String)
  | endBoundaryDrag
  | cancelBoundaryDrag
  | startQuoteCreation (selectedText : String) (range : Option SelectedRange)
      (spannedParagraphIds : List String)
  | updateReferenceInput (input : String)
  | setLookupResult (result : Option BibleLookupResult)
  | setIsLookingUp (isLookingUp : Bool)
  | setIsNonBiblical (isNonBiblical : Bool)
  | cancelQuoteCreation
  | confirmQuoteCreation
  | enterInterjectionEditMode (quoteId : String)
  | exitInterjectionEditMode
  | setPendingInterjectionCandidates (candidates : List InterjectionCandidate)
  | confirmInterjectionCandidate (index : Nat)
  | rejectInterjectionCandidate (index : Nat)
  | setInterjectionSelection (text : Option String) (range : Option (Int × Int))
  | setFilterMode (mode : QuotePanelFilterMode)
  | setSelectedBook (book : Option String)
  | setSearchQuery (query : String)
  | loadPersistedState (persisted : PersistedQuoteReviewState)
  | resetState
  deriving Repr, DecidableEq

/-- The quote review reducer (`quoteReviewReducer` in `contexts/types.ts`).
The reducer reads `Date.now()` in `UPDATE_BOUNDARY_PREVIEW`; that clock value
is the explicit `now` parameter. -/
def quoteReviewReducer (now : Int) (state : QuoteReviewContextState)
    (action : QuoteReviewAction) : QuoteReviewContextState :=
  match action with
  | .setQuotes quotes =>
      { state with quotes := quotes }
  | .addQuote quote =>
      { state with quotes := state.quotes ++ [quote] }
  | .updateQuote quoteId updates =>
      { state with
        quotes := state.quotes.map fun q =>
          if q.id = quoteId then applyPatch q updates else q }
  | .removeQuote quoteId =>
      { state with
        quotes := state.quotes.filter fun q => q.id ≠ quoteId
        review := { state.review with
          focusedQuoteId :=
            if state.review.focusedQuoteId = some quoteId then none
            else state.review.focusedQuoteId } }
  | .setReviewModeActive active =>
      { state with review := { state.review with isReviewModeActive := active } }
  | .setFocusedQuote quoteId =>
      { state with review := { state.review with focusedQuoteId := quoteId } }
  | .markQuoteReviewed quoteId =>
      { state with review := { state.review with
          reviewedQuoteIds := setAdd state.review.reviewedQuoteIds quoteId } }
  | .togglePanel =>
      { state with review := { state.review with panelOpen := !state.review.panelOpen } }
  | .setPanelOpen opn =>
      { state with review := { state.review with panelOpen := opn } }
  | .setPanelWidth width =>
      { state with review := { state.review with panelWidth := width } }
  | .dismissBanner =>
      { state with review := { state.review with bannerDismissed := true } }
  | .enterBoundaryEditMode quoteId =>
      { state with boundaryEdit := { state.boundaryEdit with
          isActive := true
          quoteId := some quoteId
          previewStartOffset := none
          previewEndOffset := none
          lastChangeTimestamp := none } }
  | .exitBoundaryEditMode =>
      { state with boundaryEdit := initialBoundaryEditState }
  | .updateBoundaryPreview startOffset endOffset =>
      { state with boundaryEdit := { state.boundaryEdit with
          previewStartOffset := startOffset
          previewEndOffset := endOffset
          lastChangeTimestamp := some now } }
  | .commitBoundaryChange =>
      { state with boundaryEdit := { state.boundaryEdit with
          previewStartOffset := none
          previewEndOffset := none
          lastChangeTimestamp := none } }
  | .startBoundaryDrag quoteId edge offset =>
      { state with boundaryDrag :=
          { isDragging := true
            edge := some edge
            originalOffset := offset
            currentOffset := offset
            quoteId := some quoteId
            wouldMergeParagraphs := false
            paragraphsToMerge := [] } }
  | .updateBoundaryDrag offset wouldMerge paragraphsToMerge =>
      { state with boundaryDrag := { state.boundaryDrag with
          currentOffset := offset
          wouldMergeParagraphs := wouldMerge
          paragraphsToMerge := paragraphsToMerge } }
  | .endBoundaryDrag =>
      { state with boundaryDrag := initialBoundaryDragState }
  | .cancelBoundaryDrag =>
      { state with boundaryDrag := initialBoundaryDragState }
  | .startQuoteCreation selectedText range spannedParagraphIds =>
      { state with creation :=
          { isCreating := true
            selectedText := selectedText
            selectedRange := range
            referenceInput := ""
            lookupResult := none
            isLookingUp := false
            isNonBiblical := false
            spannedParagraphIds := spannedParagraphIds } }
  | .updateReferenceInput input =>
      { state with creation := { state.creation with referenceInput := input } }
  | .setLookupResult result =>
      { state with creation := { state.creation with lookupResult := result } }
  | .setIsLookingUp isLookingUp =>
      { state with creation := { state.creation with isLookingUp := isLookingUp } }
  | .setIsNonBiblical isNonBiblical =>
      { state with creation := { state.creation with isNonBiblical := isNonBiblical } }
  | .cancelQuoteCreation =>
      { state with creation := initialCreationState }
  | .confirmQuoteCreation =>
      { state with creation := initialCreationState }
  | .enterInterjectionEditMode quoteId =>
      { state with interjectionEdit :=
          { isActive := true
            quoteId := some quoteId
            pendingCandidates := []
            selectedText := none
            selectionRange := none } }
  | .exitInterjectionEditMode =>
      { state with interjectionEdit := initialInterjectionEditState }
  | .setPendingInterjectionCandidates candidates =>
      { state with interjectionEdit := { state.interjectionEdit with
          pendingCandidates := candidates } }
  | .confirmInterjectionCandidate index =>
      { state with interjectionEdit := { state.interjectionEdit with
          pendingCandidates :=
            match state.interjectionEdit.pendingCandidates[index]? with
            | some candidate =>
                state.interjectionEdit.pendingCandidates.set index
                  { candidate with confirmed := true, rejected := false }
            | none => state.interjectionEdit.pendingCandidates } }
  | .rejectInterjectionCandidate index =>
      { state with interjectionEdit := { state.interjectionEdit with
          pendingCandidates :=
            match state.interjectionEdit.pendingCandidates[index]? with
            | some candidate =>
                state.interjectionEdit.pendingCandidates.set index
                  { candidate with confirmed := false, rejected := true }
            | none => state.interjectionEdit.pendingCandidates } }
  | .setInterjectionSelection text range =>
      { state with interjectionEdit := { state.interjectionEdit with
          selectedText := text
          selectionRange := range } }
  | .setFilterMode mode =>
      { state with panelFilter := { state.panelFilter with mode := mode } }
  | .setSelectedBook book =>
      { state with panelFilter := { state.panelFilter with selectedBook := book } }
  | .setSearchQuery query =>
      { state with panelFilter := { state.panelFilter with searchQuery := query } }
  | .loadPersistedState persisted =>
      { state with review := { state.review with
          panelOpen := persisted.panelOpen
          panelWidth := persisted.panelWidth
          reviewedQuoteIds := setOfList persisted.reviewedQuoteIds
          bannerDismissed := persisted.bannerDismissed } }
  | .resetState => initialState

-- ===========================================================================
-- Boundary mutation hook (useBoundaryMutation.ts)
-- ===========================================================================

/-- Entry of the `documentNodes` map parameter of `useBoundaryMutation`
(`Map<NodeId, { startOffset; endOffset; type }>`, iterated in insertion
order). -/
structure DocNodeInfo where
  startOffset : Int
  endOffset : Int
  type : String
  deriving Repr, DecidableEq

/-- Function `findSpannedParagraphs` from `useBoundaryMutation.ts`: ids of
the paragraphs in `documentNodes` whose range overlaps
`[startOffset, endOffset)`; `[]` when `documentNodes` is absent. -/
def findSpannedParagraphs (documentNodes : Option (List (String × DocNodeInfo)))
    (startOffset endOffset : Int) : List String :=
  match documentNodes with
  | none => []
  | some nodes =>
    (nodes.filter fun p =>
      p.2.type = "paragraph" ∧
      p.2.startOffset < endOffset ∧ startOffset < p.2.endOffset).map (·.1)

/-- Function `checkParagraphCrossing` from `useBoundaryMutation.ts`. -/
def checkParagraphCrossing (documentNodes : Option (List (String × DocNodeInfo)))
    (startOffset endOffset : Int) : Bool × List String :=
  let spannedParagraphs := findSpannedParagraphs documentNodes startOffset endOffset
  (1 < spannedParagraphs.length, spannedParagraphs)

/-- Function `snapToWordBoundary` from `useBoundaryMutation.ts` (the source
returns the offset unchanged; snapping is not implemented). -/
def snapToWordBoundary (offset : Int) (_direction : DragEdge) : Int :=
  offset

/-- Committed boundary change (`BoundaryMutationResult`). -/
structure BoundaryMutationResult where
  requiresMerge : Bool
  paragraphsToMerge : List String
  newStartOffset : Int
  newEndOffset : Int
  deriving Repr, DecidableEq

/-- State owned by the `useBoundaryMutation` hook: the quote-review context
state it dispatches into, plus the `lastCommittedOffsetRef` ref. The
debounce timer is not part of the logical state; `endDrag` is modelled as
the commit its timer eventually delivers. -/
structure BoundaryHookState where
  ctx : QuoteReviewContextState
  lastCommittedOffset : Option Int
  deriving Repr, DecidableEq

/-- Hook callback `startDrag`: record the baseline in
`lastCommittedOffsetRef` and dispatch `START_BOUNDARY_DRAG`. -/
def startDrag (now : Int) (hs : BoundaryHookState) (quoteId : String)
    (edge : DragEdge) (initialOffset : Int) : BoundaryHookState where
  ctx := quoteReviewReducer now hs.ctx
    (.startBoundaryDrag quoteId edge initialOffset)
  lastCommittedOffset := some initialOffset

/-- Preview range computed inside `updateDrag`: hold the non-dragged edge at
`originalOffset` and move the dragged edge to the snapped offset. `none`
when the guard `!boundaryDrag.isDragging || boundaryDrag.quoteId === null`
fires. -/
def updateDragPreview (hs : BoundaryHookState) (newOffset : Int) :
    Option (Int × Int) :=
  let bd := hs.ctx.boundaryDrag
  if bd.isDragging ∧ bd.quoteId ≠ none then
    let snappedOffset := snapToWordBoundary newOffset
      ((bd.edge).getD DragEdge.dragEnd)
    some (if bd.edge = some DragEdge.dragStart then
            (snappedOffset, bd.originalOffset)
          else
            (bd.originalOffset, snappedOffset))
  else
    none

/-- Hook callback `updateDrag`: compute the preview range, detect paragraph
crossing, and dispatch `UPDATE_BOUNDARY_DRAG`. -/
def updateDrag (now : Int) (documentNodes : Option (List (String × DocNodeInfo)))
    (hs : BoundaryHookState) (newOffset : Int) : BoundaryHookState :=
  match updateDragPreview hs newOffset with
  | none => hs
  | some (startOffset, endOffset) =>
    let snappedOffset := snapToWordBoundary newOffset
      ((hs.ctx.boundaryDrag.edge).getD DragEdge.dragEnd)
    let crossing := checkParagraphCrossing documentNodes startOffset endOffset
    { hs with ctx := (quoteReviewReducer now hs.ctx
        (.updateBoundaryDrag snappedOffset crossing.1 crossing.2)) }

/-- Hook callback `endDrag`, modelled as the commit its debounce timer
delivers (`onBoundaryCommit` is taken to be provided). Returns the state
after `END_BOUNDARY_DRAG` together with the committed quote id and
`BoundaryMutationResult`, or `none` when the guard fires or the change is
not significant (`|newOffset - lastCommittedOffset| ≤ 5`). -/
def endDrag (now : Int) (documentNodes : Option (List (String × DocNodeInfo)))
    (hs : BoundaryHookState) :
    BoundaryHookState × Option (String × BoundaryMutationResult) :=
  let bd := hs.ctx.boundaryDrag
  match bd.quoteId with
  | none => (hs, none)
  | some quoteId =>
    if bd.isDragging then
      let newOffset := bd.currentOffset
      let significantChange : Bool :=
        match hs.lastCommittedOffset with
        | none => true
        | some last => 5 < (newOffset - last).natAbs
      if significantChange then
        let ro :=
          if bd.edge = some DragEdge.dragStart then
            (newOffset, bd.originalOffset)
          else
            (bd.originalOffset, newOffset)
        let crossing := checkParagraphCrossing documentNodes ro.1 ro.2
        ({ ctx := quoteReviewReducer now hs.ctx .endBoundaryDrag
           lastCommittedOffset := some newOffset },
         some (quoteId,
           { requiresMerge := crossing.1
             paragraphsToMerge := crossing.2
             newStartOffset := ro.1
             newEndOffset := ro.2 }))
      else
        ({ hs with ctx := quoteReviewReducer now hs.ctx .endBoundaryDrag },
         none)
    else
      (hs, none)

/-- One drag trace: `startDrag` followed by a list of `updateDrag` offsets,
collecting the preview range computed by every `updateDrag` call. -/
def runDragUpdates (now : Int)
    (documentNodes : Option (List (String × DocNodeInfo)))
    (hs : BoundaryHookState) :
    List Int → BoundaryHookState × List (Option (Int × Int))
  | [] => (hs, [])
  | offset :: rest =>
    let preview := updateDragPreview hs offset
    let hs' := updateDrag now documentNodes hs offset
    let r := runDragUpdates now documentNodes hs' rest
    (r.1, preview :: r.2)

-- ===========================================================================
-- Interjection detection (useInterjectionDetection.ts)
-- ===========================================================================

/-- One entry of `INTERJECTION_PATTERNS`: the literal alternatives of the
regex alternation (in source order), the confidence weight, the context
label, and the regex source text. -/
structure InterjectionPattern where
  alternatives : List String
  confidence : Rat
  context : String
  source : String
  deriving Repr, DecidableEq

/-- The `INTERJECTION_PATTERNS` table. Each regex has the shape
`/\b(alt1|alt2|...)\b/gi` with purely literal alternatives. -/
def INTERJECTION_PATTERNS : List InterjectionPattern :=
  [ ⟨["amen"], mkRat 95 100, "Common affirmation", "\\b(amen)\\b"⟩,
    ⟨["hallelujah", "alleluia"], mkRat 95 100, "Praise expression",
      "\\b(hallelujah|alleluia)\\b"⟩,
    ⟨["praise the lord", "praise god"], mkRat 90 100, "Praise expression",
      "\\b(praise the lord|praise god)\\b"⟩,
    ⟨["glory to god", "glory be"], mkRat 85 100, "Glorification",
      "\\b(glory to god|glory be)\\b"⟩,
    ⟨["yes lord"], mkRat 75 100, "Affirmation", "\\b(yes lord)\\b"⟩,
    ⟨["thank you jesus", "thank you lord"], mkRat 80 100, "Thanksgiving",
      "\\b(thank you jesus|thank you lord)\\b"⟩,
    ⟨["come on", "c'mon"], mkRat 60 100, "Encouragement", "\\b(come on|c'mon)\\b"⟩,
    ⟨["that's right"], mkRat 55 100, "Agreement", "\\b(that's right)\\b"⟩,
    ⟨["mmhmm", "mhm", "uh-huh"], mkRat 70 100, "Verbal affirmation",
      "\\b(mmhmm|mhm|uh-huh)\\b"⟩,
    ⟨["wow", "oh", "ah"], mkRat 40 100, "Exclamation", "\\b(wow|oh|ah)\\b"⟩ ]

/-- Constant `AUTO_DETECT_THRESHOLD`. -/
def AUTO_DETECT_THRESHOLD : Rat := mkRat 50 100

/-- Constant `HIGH_CONFIDENCE_THRESHOLD`. -/
def HIGH_CONFIDENCE_THRESHOLD : Rat := mkRat 80 100

/-- JavaScript word character class `\w` = `[A-Za-z0-9_]`, as used by the
`\b` assertions of the interjection patterns. -/
def isWordChar (c : Char) : Bool :=
  isAsciiLetter c || isAsciiDigit c || c = '_'

/-- Case-insensitive literal match of `alt` at the front of `l` (the `i`
flag canonicalizes ASCII case). Returns the matched prefix of `l` (original
case) and the remainder. -/
def matchLit : List Char → List Char → Option (List Char × List Char)
  | [], rest => some ([], rest)
  | _ :: _, [] => none
  | a :: as, c :: cs =>
    if a.toLower = c.toLower then
      match matchLit as cs with
      | some (m, rem) => some (c :: m, rem)
      | none => none
    else
      none

/-- Raw regex match record (`InterjectionMatch`). -/
structure InterjectionMatch where
  text : String
  startOffset : Int
  endOffset : Int
  confidence : Rat
  context : String
  pattern : String
  deriving Repr, DecidableEq

/-- Try the alternatives of one alternation in source order at a fixed
position: the first alternative that matches literally and whose end
satisfies `\b` wins (the regex engine backtracks into the alternation when
the trailing `\b` fails). Every alternative of `INTERJECTION_PATTERNS`
starts and ends with a word character, so the `\b` assertions reduce to the
neighbouring character not being a word character. -/
def matchAlts (rest : List Char) : List String → Option (List Char × List Char)
  | [] => none
  | alt :: alts =>
    match matchLit alt.data rest with
    | some (matched, remaining) =>
      match remaining with
      | [] => some (matched, remaining)
      | c :: _ =>
        if isWordChar c then matchAlts rest alts
        else some (matched, remaining)
    | none => matchAlts rest alts

/-- Match one pattern at one position: the leading `\b` requires the
previous character not to be a word character (every alternative begins
with one), then the alternation is tried. -/
def matchAltsAt (alts : List String) (prevIsWord : Bool)
    (rest : List Char) : Option (List Char × List Char) :=
  if prevIsWord then none else matchAlts rest alts

/-- Global scan of one pattern over the text (the `exec` loop with the `g`
flag): successive non-overlapping matches, each search resuming at the end
of the previous match. The scan advances one character at a time: `pos` is
the current position, `prevIsWord` whether the previous character is a word
character, and `skip` the number of characters of the previous match still
to be stepped over (stepping through them keeps `prevIsWord` in sync, so
after a match of length `L` the scan resumes `L` characters later with
`prevIsWord` set by the match's last character — exactly where `exec`
resumes via `lastIndex`). An empty match is impossible for the source's
patterns (all alternatives are non-empty; an empty global match would make
the source's `exec` loop spin forever) and is treated as no match. -/
def scanPattern (p : InterjectionPattern) (pos : Nat) (prevIsWord : Bool)
    (skip : Nat) : List Char → List InterjectionMatch
  | [] => []
  | c :: cs =>
    match skip with
    | n + 1 => scanPattern p (pos + 1) (isWordChar c) n cs
    | 0 =>
      match matchAltsAt p.alternatives prevIsWord (c :: cs) with
      | some (mc :: mrest, _) =>
        { text := ⟨mc :: mrest⟩
          startOffset := (pos : Int)
          endOffset := (pos + (mc :: mrest).length : Int)
          confidence := p.confidence
          context := p.context
          pattern := p.source } ::
        scanPattern p (pos + 1) (isWordChar c) ((mc :: mrest).length - 1) cs
      | some ([], _) => scanPattern p (pos + 1) (isWordChar c) 0 cs
      | none => scanPattern p (pos + 1) (isWordChar c) 0 cs

/-- Comparator used by `findMatches`'s
`matches.sort((a, b) => a.startOffset - b.startOffset)`. -/
def byMatchStart (a b : InterjectionMatch) : Prop :=
  a.startOffset ≤ b.startOffset

instance : DecidableRel byMatchStart := fun a b =>
  inferInstanceAs (Decidable (a.startOffset ≤ b.startOffset))

instance : IsTotal InterjectionMatch byMatchStart :=
  ⟨fun a b => Int.le_total a.startOffset b.startOffset⟩

instance : IsTrans InterjectionMatch byMatchStart :=
  ⟨fun _ _ _ => Int.le_trans⟩

/-- Stable sort of matches by `startOffset` (JavaScript
`Array.prototype.sort` is stable, as is insertion sort on `≤`). -/
def sortMatches (l : List InterjectionMatch) : List InterjectionMatch :=
  l.insertionSort byMatchStart

/-- Overlap filtering loop of `findMatches`: keep the first non-overlapping
match, or replace an overlapping kept match when the new one has strictly
higher confidence. -/
def filterOverlaps (kept : List InterjectionMatch) :
    List InterjectionMatch → List InterjectionMatch
  | [] => kept
  | m :: ms =>
    let overlapping := kept.find? fun k =>
      (k.startOffset ≤ m.startOffset ∧ m.startOffset < k.endOffset) ∨
      (k.startOffset < m.endOffset ∧ m.endOffset ≤ k.endOffset)
    match overlapping with
    | none => filterOverlaps (kept ++ [m]) ms
    | some o =>
      if o.confidence < m.confidence then
        filterOverlaps
          (kept.map fun k => if k = o then m else k) ms
      else
        filterOverlaps kept ms

/-- Function `findMatches` from `useInterjectionDetection.ts`: all pattern
matches, sorted by position, with overlapping matches resolved in favour of
higher confidence. -/
def findMatches (text : String) : List InterjectionMatch :=
  let found := INTERJECTION_PATTERNS.flatMap fun p =>
    scanPattern p 0 false 0 text.data
  filterOverlaps [] (sortMatches found)

/-- Function `detectInterjections` from `useInterjectionDetection.ts`:
filter the matches by the effective confidence threshold and build unarmed
candidates (`confirmed: false`, `rejected: false`). -/
def detectInterjections (threshold : Rat) (highConfidenceOnly : Bool)
    (text : String) : List InterjectionCandidate :=
  let found := findMatches text
  let effectiveThreshold :=
    if highConfidenceOnly then HIGH_CONFIDENCE_THRESHOLD else threshold
  (found.filter fun m => effectiveThreshold ≤ m.confidence).map fun m =>
    { text := m.text
      startOffset := m.startOffset
      endOffset := m.endOffset
      confirmed := false
      rejected := false
      confidence := m.confidence
      context := some m.context }

-- ===========================================================================
-- Document model (src/shared/documentModel.ts; modelled from the spec, §3)
-- ===========================================================================

/-- Value of a generic attribute record entry (`Record<string, unknown>`
restricted to the value shapes this codebase stores in mark attributes). -/
inductive AttrVal where
  | str (s : String)
  | num (q : Rat)
  | boolean (b : Bool)
  | nul
  deriving Repr, DecidableEq

/-- Inline formatting mark on a text node (`{type, attrs?}`). -/
structure Mark where
  type : String
  attrs : Option (List (String × AttrVal)) := none
  deriving Repr, DecidableEq

/-- Modelled from the spec: `QuoteMetadata.reference` (the `shared/documentModel`
module is not under `src/`). `verseStart`/`verseEnd` are `number | null`. -/
structure QuoteReference where
  book : String
  chapter : Rat
  verseStart : Option Rat
  verseEnd : Option Rat
  originalText : String
  normalizedReference : String
  deriving Repr, DecidableEq

/-- Modelled from the spec: `QuoteMetadata.detection`. The source field
`isPartialMatch` is named `isPartMatch` here. -/
structure QuoteDetection where
  confidence : Rat
  confidenceLevel : String
  translation : String
  translationAutoDetected : Bool
  verseText : String
  isPartMatch : Bool
  deriving Repr, DecidableEq

/-- Modelled from the spec: `QuoteMetadata`. The element type of
`interjections` is opaque to the converter (which only ever writes `[]`),
so entries are left as opaque strings. -/
structure QuoteMetadata where
  reference : QuoteReference
  detection : QuoteDetection
  interjections : List String
  userVerified : Bool
  deriving Repr, DecidableEq

/-- Modelled from the spec: the `DocumentNode` tagged union
(paragraph / heading / quote_block / text / interjection). A text node's
`marks` list with `[]` models an absent `marks` field (every read in the
sources guards with `marks && marks.length > 0` or `marks?.`). -/
inductive DocumentNode where
  | paragraph (id : String) (version : Nat) (updatedAt : Nat)
      (children : List DocumentNode)
  | heading (id : String) (version : Nat) (updatedAt : Nat) (level : Nat)
      (children : List DocumentNode)
  | quoteBlock (id : String) (version : Nat) (updatedAt : Nat)
      (metadata : QuoteMetadata) (children : List DocumentNode)
  | textNode (id : String) (version : Nat) (updatedAt : Nat)
      (content : String) (marks : List Mark)
  | interjection (id : String) (version : Nat) (updatedAt : Nat)
      (content : String) (metadataId : String)

/-- Modelled from the spec: `DocumentRootNode`. -/
structure DocumentRootNode where
  id : String
  version : Nat
  updatedAt : Nat
  title : Option String := none
  biblePassage : Option String := none
  speaker : Option String := none
  tags : Option (List String) := none
  children : List DocumentNode

/-- Opaque event-log entry (the converter and history code never inspect
event contents). -/
structure DocEvent where
  tag : String
  payload : String
  deriving Repr, DecidableEq

/-- Modelled from the spec: the persisted `DocumentState` unit
(`root`, bounded `eventLog`, `undoStack`, `redoStack`). -/
structure DocumentState where
  root : DocumentRootNode
  eventLog : List DocEvent
  undoStack : List DocumentRootNode
  redoStack : List DocumentRootNode

-- ===========================================================================
-- Document history (src/renderer/features/document/history/documentHistory.ts)
-- ===========================================================================

/-- JavaScript `array.slice(-n)` for a natural `n`: the most recent `n`
entries — except that `slice(-0)` is `slice(0)`, the whole array. -/
def jsSliceNeg {α : Type} (l : List α) (n : Nat) : List α :=
  if n = 0 then l else l.drop (l.length - n)

/-- Function `pruneEventLog` from `documentHistory.ts`: prune the event log
to `maxEvents` entries and clear the undo/redo stacks when pruning happens. -/
def pruneEventLog (documentState : DocumentState) (maxEvents : Nat) :
    DocumentState :=
  if documentState.eventLog.length ≤ maxEvents then documentState
  else
    { documentState with
      eventLog := jsSliceNeg documentState.eventLog maxEvents
      undoStack := []
      redoStack := [] }

-- ===========================================================================
-- Reference parsing (useQuoteCreation.ts: REFERENCE_PATTERN, parseReference)
-- ===========================================================================

/-- JavaScript `parseInt(s, 10)` on a non-empty digit string. -/
def digitsToInt (l : List Char) : Int :=
  (l.foldl (fun n c => 10 * n + (c.toNat - 48)) 0 : Nat)

/-- Tail of the reference pattern: the `(?:\s+[A-Za-z]+)*` loop of
`REFERENCE_PATTERN`, processed one character at a time. `acc` holds the part
of group 1 matched so far and `pending` a reversed run of whitespace not yet
known to be followed by a letter. Each iteration of the regex loop consumes
one-or-more whitespace characters followed by one-or-more letters (all
captured into group 1); whitespace not followed by a letter is left in the
remainder for the `\s*` that follows the group. Greedy matching is
deterministic here because the whitespace, letter and digit classes are
pairwise disjoint, so this recursive descent accepts exactly the strings the
backtracking regex engine accepts, with the same group boundaries. -/
def matchRefWords (acc : List Char) (pending : List Char) :
    List Char → List Char × List Char
  | [] => (acc, pending.reverse)
  | c :: cs =>
    if jsIsSpace c then
      matchRefWords acc (c :: pending) cs
    else if isAsciiLetter c then
      matchRefWords (acc ++ pending.reverse ++ [c]) [] cs
    else
      (acc, pending.reverse ++ c :: cs)

/-- Full matcher for
`^([1-3]?\s*[A-Za-z]+(?:\s+[A-Za-z]+)*)\s*(\d+):(\d+)(?:-(\d+))?$`
(`REFERENCE_PATTERN` in `useQuoteCreation.ts`), applied to an entire
character list. Returns the four capture groups on success. -/
def matchReferencePattern (l : List Char) :
    Option (List Char × List Char × List Char × Option (List Char)) :=
  let ord : List Char × List Char :=
    match l with
    | c :: cs => if c = '1' || c = '2' || c = '3' then ([c], cs) else ([], l)
    | [] => ([], [])
  let sp1 := ord.2.takeWhile jsIsSpace
  let r2 := ord.2.dropWhile jsIsSpace
  let w1 := r2.takeWhile isAsciiLetter
  let r3 := r2.dropWhile isAsciiLetter
  if w1 = [] then none
  else
    let words := matchRefWords (ord.1 ++ sp1 ++ w1) [] r3
    let group1 := words.1
    let r4 := words.2.dropWhile jsIsSpace
    let chap := r4.takeWhile isAsciiDigit
    let r5 := r4.dropWhile isAsciiDigit
    if chap = [] then none
    else
      match r5 with
      | ':' :: r6 =>
        let vs := r6.takeWhile isAsciiDigit
        let r7 := r6.dropWhile isAsciiDigit
        if vs = [] then none
        else
          match r7 with
          | [] => some (group1, chap, vs, none)
          | '-' :: r8 =>
            let ve := r8.takeWhile isAsciiDigit
            let r9 := r8.dropWhile isAsciiDigit
            if ve ≠ [] ∧ r9 = [] then some (group1, chap, vs, some ve)
            else none
          | _ => none
      | _ => none

/-- Result record of `parseReference`. -/
structure ParsedReference where
  valid : Bool
  book : Option String := none
  chapter : Option Int := none
  verseStart : Option Int := none
  verseEnd : Option Int := none
  deriving Repr, DecidableEq

/-- Function `parseReference` from `useQuoteCreation.ts`: trim the input,
match it against `REFERENCE_PATTERN`, and convert the captures
(`book?.trim() ?? ''`, `chapter ? parseInt(chapter, 10) : 0`, etc.). -/
def parseReference (reference : String) : ParsedReference :=
  match matchReferencePattern (jsTrim reference).data with
  | none => { valid := false }
  | some (book, chapter, verseStart, verseEnd) =>
    { valid := true
      book := some (jsTrim ⟨book⟩)
      chapter := some (if chapter ≠ [] then digitsToInt chapter else 0)
      verseStart := some (if verseStart ≠ [] then digitsToInt verseStart else 0)
      verseEnd := verseEnd.map digitsToInt }

/-- Function `performLookup` from `useQuoteCreation.ts`, with the verse
lookup service as an explicit collaborator. The second component records
whether `onLookupVerse` was invoked: an invalid reference short-circuits to
an error result without calling the service. -/
def performLookup (onLookupVerse : String → BibleLookupResult)
    (reference : String) : BibleLookupResult × Bool :=
  if (parseReference reference).valid then
    (onLookupVerse reference, true)
  else
    ({ success := false
       error := some "Invalid reference format. Use \"Book Chapter:Verse\" format." },
     false)

-- ===========================================================================
-- Paragraph merge (useParagraphMerge.ts)
-- ===========================================================================

/-- Paragraph info record (`ParagraphInfo`). -/
structure ParagraphInfo where
  id : String
  text : String
  startOffset : Int
  endOffset : Int
  deriving Repr, DecidableEq

/-- Merge preview record (`MergePreview`). -/
structure MergePreview where
  paragraphIds : List String
  mergedText : String
  startOffset : Int
  endOffset : Int
  requiresConfirmation : Bool
  deriving Repr, DecidableEq

/-- Comparator used by `previewMerge`'s
`sort((a, b) => a.startOffset - b.startOffset)`. -/
def byStartOffset (a b : ParagraphInfo) : Prop :=
  a.startOffset ≤ b.startOffset

instance : DecidableRel byStartOffset := fun a b =>
  inferInstanceAs (Decidable (a.startOffset ≤ b.startOffset))

instance : IsTotal ParagraphInfo byStartOffset :=
  ⟨fun a b => Int.le_total a.startOffset b.startOffset⟩

instance : IsTrans ParagraphInfo byStartOffset :=
  ⟨fun _ _ _ => Int.le_trans⟩

/-- Function `previewMerge` from `useParagraphMerge.ts` (with the
`getParagraphInfo` collaborator supplied; the `!getParagraphInfo` early-out
of the source corresponds to not calling this function at all). JavaScript's
`Array.prototype.sort` is stable, as is insertion sort on the `≤` comparator
used here. -/
def previewMerge (getParagraphInfo : String → Option ParagraphInfo)
    (autoConfirm : Bool) (paragraphIds : List String) : Option MergePreview :=
  if paragraphIds.length < 2 then none
  else
    let paragraphs :=
      ((paragraphIds.map getParagraphInfo).reduceOption).insertionSort
        byStartOffset
    if paragraphs.length < 2 then none
    else
      some
        { paragraphIds := paragraphIds
          mergedText :=
            String.intercalate " " (paragraphs.map fun p => jsTrim p.text)
          startOffset := ((paragraphs.head?).map (·.startOffset)).getD 0
          endOffset := ((paragraphs.getLast?).map (·.endOffset)).getD 0
          requiresConfirmation := !autoConfirm }

-- ===========================================================================
-- AST ↔ TipTap converter (astTipTapConverter.ts)
-- ===========================================================================

/-- The TipTap attribute keys this codebase reads or writes
(`attrs?: Record<string, unknown>` in the source, written only by
`astToTipTapJson` and the editor extensions with exactly these typed keys).
An absent field models an absent key; for `verseStart`/`verseEnd`, `none`
also models a key set to `null` (every read treats the two alike, via `||`
and `??` respectively). -/
structure TTAttrs where
  nodeId : Option String := none
  level : Option Nat := none
  textAlign : Option String := none
  reference : Option String := none
  book : Option String := none
  chapter : Option Rat := none
  verseStart : Option Rat := none
  verseEnd : Option Rat := none
  originalText : Option String := none
  translation : Option String := none
  confidence : Option Rat := none
  userVerified : Option Bool := none
  deriving Repr, DecidableEq

/-- TipTap node (`TipTapNode` in the source: `{type, attrs?, content?,
text?, marks?}`). `content = []`, `text = ""` and `marks = []` model the
absent field (every read in the source treats the two alike: `content` is
only iterated, `text` only read through `|| ''` or truthiness, `marks` only
through `?.` and length guards). Marks reuse the `Mark` shape
(`{type, attrs?}`), which is identical for the AST and TipTap. -/
inductive TipTapNode where
  | mk (type : String) (attrs : Option TTAttrs) (content : List TipTapNode)
      (text : String) (marks : List Mark)

/-- Projection: node type tag. -/
def TipTapNode.type : TipTapNode → String
  | .mk t _ _ _ _ => t

/-- Projection: node attributes. -/
def TipTapNode.attrs : TipTapNode → Option TTAttrs
  | .mk _ a _ _ _ => a

/-- Projection: node content. -/
def TipTapNode.content : TipTapNode → List TipTapNode
  | .mk _ _ c _ _ => c

/-- Projection: node text. -/
def TipTapNode.text : TipTapNode → String
  | .mk _ _ _ t _ => t

/-- Projection: node marks. -/
def TipTapNode.marks : TipTapNode → List Mark
  | .mk _ _ _ _ m => m

@[simp] theorem TipTapNode.type_mk (t : String) (a : Option TTAttrs)
    (c : List TipTapNode) (x : String) (m : List Mark) :
    (TipTapNode.mk t a c x m).type = t := rfl

@[simp] theorem TipTapNode.attrs_mk (t : String) (a : Option TTAttrs)
    (c : List TipTapNode) (x : String) (m : List Mark) :
    (TipTapNode.mk t a c x m).attrs = a := rfl

@[simp] theorem TipTapNode.content_mk (t : String) (a : Option TTAttrs)
    (c : List TipTapNode) (x : String) (m : List Mark) :
    (TipTapNode.mk t a c x m).content = c := rfl

@[simp] theorem TipTapNode.text_mk (t : String) (a : Option TTAttrs)
    (c : List TipTapNode) (x : String) (m : List Mark) :
    (TipTapNode.mk t a c x m).text = x := rfl

@[simp] theorem TipTapNode.marks_mk (t : String) (a : Option TTAttrs)
    (c : List TipTapNode) (x : String) (m : List Mark) :
    (TipTapNode.mk t a c x m).marks = m := rfl

/-- TipTap document (`TipTapDocument`: `{type: 'doc', content}`). `none`
models a missing or non-array `content` (the `!doc.content ||
!Array.isArray(doc.content)` guard); note that an empty array is **some**
`[]`, which passes that guard. -/
structure TipTapDocument where
  content : Option (List TipTapNode)

/-- Conversion options (`ConversionOptions`), all defaulting to `true`. -/
structure ConversionOptions where
  preserveIds : Option Bool := none
  includeMetadata : Option Bool := none
  includeInterjections : Option Bool := none

/-- Conversion result (`ConversionResult<T>`). -/
structure ConversionResult (T : Type) where
  success : Bool
  data : Option T := none
  error : Option String := none
  warnings : Option (List String) := none

/-- JavaScript `a || b` for naturals (`0` is falsy). -/
def jsOrNat (a : Option Nat) (b : Nat) : Nat :=
  match a with
  | some n => if n = 0 then b else n
  | none => b

/-- String-valued mark attribute lookup (`mark?.attrs?.key`); only strings
are ever stored under the interjection mark keys. -/
def markAttrStr (attrs : Option (List (String × AttrVal))) (key : String) :
    Option String :=
  match attrs with
  | none => none
  | some l =>
    match l.lookup key with
    | some (.str s) => some s
    | _ => none

/-- Structural-node id recovery
(`preserveIds && attrs.nodeId ? attrs.nodeId : createNodeId()`): reuse the
id carried in the editor-tree attributes when id preservation is on and the
attribute is truthy, else mint a fresh id from the supply. -/
def idOrFresh (fresh : Nat → String) (preserveIds : Bool)
    (attrId : Option String) (c : Nat) : String × Nat :=
  if preserveIds then
    match attrId with
    | some s => if s = "" then (fresh c, c + 1) else (s, c)
    | none => (fresh c, c + 1)
  else
    (fresh c, c + 1)

/-- JavaScript `x || createNodeId()` for an optional string attribute. -/
def strOrFresh (fresh : Nat → String) (attr : Option String) (c : Nat) :
    String × Nat :=
  match attr with
  | some s => if s = "" then (fresh c, c + 1) else (s, c)
  | none => (fresh c, c + 1)

mutual

/-- Function `convertNodeToTipTap` from `astTipTapConverter.ts` (with the
bodies of `convertParagraphToTipTap`, `convertQuoteToTipTap` and
`convertHeadingToTipTap` inlined at their call sites; the children loops are
`convertChildrenToTipTap` and, for blockquotes, `convertQuoteChildren`,
which additionally wraps converted text nodes in paragraphs). -/
def convertNodeToTipTap (opts : ConversionOptions) :
    DocumentNode → Option TipTapNode
  | .paragraph i _ _ cs =>
    let preserveIds := opts.preserveIds.getD true
    let content := convertChildrenToTipTap opts cs
    some (.mk "paragraph"
      (if preserveIds then some { nodeId := some i } else none)
      content "" [])
  | .quoteBlock i _ _ md cs =>
    let preserveIds := opts.preserveIds.getD true
    let includeMetadata := opts.includeMetadata.getD true
    let content := convertQuoteChildren opts cs
    let attrs : TTAttrs :=
      { nodeId := if preserveIds then some i else none
        reference :=
          if includeMetadata then some md.reference.normalizedReference
          else none
        book := if includeMetadata then some md.reference.book else none
        chapter := if includeMetadata then some md.reference.chapter else none
        verseStart := if includeMetadata then md.reference.verseStart else none
        verseEnd := if includeMetadata then md.reference.verseEnd else none
        originalText :=
          if includeMetadata then some md.reference.originalText else none
        translation :=
          if includeMetadata then some md.detection.translation else none
        confidence :=
          if includeMetadata then some md.detection.confidence else none
        userVerified := if includeMetadata then some md.userVerified else none }
    some (.mk "blockquote"
      (if preserveIds ∨ includeMetadata then some attrs else none)
      (if content.length > 0 then content else [.mk "paragraph" none [] "" []])
      "" [])
  | .heading i _ _ level cs =>
    let preserveIds := opts.preserveIds.getD true
    let content := convertChildrenToTipTap opts cs
    some (.mk "heading"
      (some { level := some level
              nodeId := if preserveIds then some i else none })
      content "" [])
  | .textNode _ _ _ content marks =>
    if content = "" then none
    else some (.mk "text" none [] content marks)
  | .interjection i _ _ content metadataId =>
    if opts.includeInterjections.getD true then
      some (.mk "text" none [] content
        [{ type := "interjection"
           attrs :=
             if opts.preserveIds.getD true then
               some [("nodeId", .str i), ("metadataId", .str metadataId)]
             else some [] }])
    else none

/-- Children loop shared by the paragraph and heading conversions: convert
each child, dropping the `null` results. -/
def convertChildrenToTipTap (opts : ConversionOptions) :
    List DocumentNode → List TipTapNode
  | [] => []
  | n :: ns =>
    match convertNodeToTipTap opts n with
    | some t => t :: convertChildrenToTipTap opts ns
    | none => convertChildrenToTipTap opts ns

/-- Children loop of the blockquote conversion: converted text nodes are
wrapped in paragraphs. -/
def convertQuoteChildren (opts : ConversionOptions) :
    List DocumentNode → List TipTapNode
  | [] => []
  | n :: ns =>
    match convertNodeToTipTap opts n with
    | some t =>
      (if t.type = "text" then TipTapNode.mk "paragraph" none [t] "" [] else t) ::
        convertQuoteChildren opts ns
    | none => convertQuoteChildren opts ns

end

/-- Truthiness of an optional string (`undefined` and `''` are falsy). -/
def jsTruthy (a : Option String) : Bool :=
  match a with
  | some s => s ≠ ""
  | none => false

/-- Function `astToTipTapJson` from `astTipTapConverter.ts`. The `try` can
never throw in this pure model, so the result is always a success; the
`warnings` array is never written, hence always reported as absent. -/
def astToTipTapJson (root : DocumentRootNode)
    (options : ConversionOptions := {}) : ConversionResult TipTapDocument :=
  let titleNodes : List TipTapNode :=
    match root.title with
    | some t =>
      if t ≠ "" then
        [.mk "heading" (some { level := some 1, textAlign := some "center" })
          [.mk "text" none [] t []] "" []]
      else []
    | none => []
  let passageNodes : List TipTapNode :=
    match root.biblePassage with
    | some p =>
      if p ≠ "" then
        [.mk "paragraph" none
          [.mk "text" none [] "Primary Reference: " [{ type := "bold" }],
           .mk "text" none [] p []] "" []]
      else []
    | none => []
  let childNodes := convertChildrenToTipTap options root.children
  let content := titleNodes ++ passageNodes ++ childNodes
  let content :=
    if content.length = 0 then [TipTapNode.mk "paragraph" none [] "" []]
    else content
  { success := true
    data := some { content := some content }
    warnings := none }

mutual

/-- Function `extractText` from `astTipTapConverter.ts`. -/
def extractText : TipTapNode → String
  | .mk _ _ content text _ =>
    if text ≠ "" then text else extractTextList content

/-- List part of `extractText` (`node.content.map(extractText).join('')`). -/
def extractTextList : List TipTapNode → String
  | [] => ""
  | n :: ns => extractText n ++ extractTextList ns

end

/-- Function `extractBook` from `astTipTapConverter.ts`: the match of
`/^([A-Za-z\s]+)/`, trimmed, else `'Unknown'`. -/
def extractBook (reference : String) : String :=
  let m := reference.data.takeWhile fun c => isAsciiLetter c || jsIsSpace c
  if m = [] then "Unknown" else jsTrim ⟨m⟩

/-- Function `convertTipTapInterjection` from `astTipTapConverter.ts`. -/
def convertTipTapInterjection (fresh : Nat → String) (now : Nat)
    (node : TipTapNode) (c : Nat) : DocumentNode × Nat :=
  let mark := node.marks.find? fun m => m.type = "interjection"
  let attrs := mark.bind (·.attrs)
  let idc := strOrFresh fresh (markAttrStr attrs "nodeId") c
  let midc := strOrFresh fresh (markAttrStr attrs "metadataId") idc.2
  (.interjection idc.1 1 now node.text midc.1, midc.2)

/-- Inner loop of `convertTipTapBlockquote` over one paragraph's content:
interjection-marked text becomes an `InterjectionNode` with the ids carried
by the mark, other text becomes a fresh `TextNode`; non-text entries are
skipped. -/
def quoteTextChildren (fresh : Nat → String) (now : Nat) :
    List TipTapNode → Nat → List DocumentNode × Nat
  | [], c => ([], c)
  | textNode :: rest, c =>
    if textNode.type = "text" then
      if textNode.marks.any (fun m => m.type = "interjection") then
        let mark := textNode.marks.find? fun m => m.type = "interjection"
        let idc := strOrFresh fresh
          (markAttrStr (mark.bind (·.attrs)) "nodeId") c
        let midc := strOrFresh fresh
          (markAttrStr (mark.bind (·.attrs)) "metadataId") idc.2
        let rs := quoteTextChildren fresh now rest midc.2
        (.interjection idc.1 1 now textNode.text midc.1 :: rs.1, rs.2)
      else
        let rs := quoteTextChildren fresh now rest (c + 1)
        (.textNode (fresh c) 1 now textNode.text [] :: rs.1, rs.2)
    else
      quoteTextChildren fresh now rest c

/-- Outer loop of `convertTipTapBlockquote`: extract the text children of
the blockquote's paragraphs as quote children. -/
def quoteChildrenFromContent (fresh : Nat → String) (now : Nat) :
    List TipTapNode → Nat → List DocumentNode × Nat
  | [], c => ([], c)
  | child :: rest, c =>
    let step : List DocumentNode × Nat :=
      if child.type = "paragraph" then
        quoteTextChildren fresh now child.content c
      else ([], c)
    let rest' := quoteChildrenFromContent fresh now rest step.2
    (step.1 ++ rest'.1, rest'.2)

/-- Function `convertTipTapBlockquote` from `astTipTapConverter.ts`:
reconstruct a `QuoteBlockNode` and its metadata entirely from the flattened
blockquote attributes, with `'Unknown'`/`0.5`/`'KJV'` defaults for missing
entries. -/
def convertTipTapBlockquote (fresh : Nat → String) (now : Nat)
    (opts : ConversionOptions) (node : TipTapNode) (c : Nat) :
    DocumentNode × Nat :=
  let preserveIds := opts.preserveIds.getD true
  let attrs := node.attrs
  let childrenC := quoteChildrenFromContent fresh now node.content c
  let refString := jsOrStr (attrs.bind (·.reference)) "Unknown"
  let metadata : QuoteMetadata :=
    { reference :=
        { book := jsOrStr (attrs.bind (·.book)) (extractBook refString)
          chapter := jsOrRat (attrs.bind (·.chapter)) 0
          verseStart :=
            match attrs.bind (·.verseStart) with
            | some q => if q = 0 then none else some q
            | none => none
          verseEnd := attrs.bind (·.verseEnd)
          originalText := jsOrStr (attrs.bind (·.originalText)) refString
          normalizedReference := refString }
      detection :=
        { confidence := jsOrRat (attrs.bind (·.confidence)) (mkRat 1 2)
          confidenceLevel := "medium"
          translation := jsOrStr (attrs.bind (·.translation)) "KJV"
          translationAutoDetected := false
          verseText := ""
          isPartMatch := false }
      interjections := []
      userVerified := jsOrBool (attrs.bind (·.userVerified)) false }
  let idc := idOrFresh fresh preserveIds (attrs.bind (·.nodeId)) childrenC.2
  (.quoteBlock idc.1 1 now metadata childrenC.1, idc.2)

mutual

/-- Function `convertTipTapToNode` from `astTipTapConverter.ts` (with the
bodies of `convertTipTapParagraph` and `convertTipTapHeading` inlined at
their call sites; their shared children loop is `convertTipTapChildren`).
The id supply and the `createTimestamp` clock are explicit parameters; the
returned counter threads the supply. -/
def convertTipTapToNode (fresh : Nat → String) (now : Nat)
    (opts : ConversionOptions) :
    TipTapNode → Nat → Option DocumentNode × Nat
  | .mk ty attrs content text marks, c =>
    let preserveIds := opts.preserveIds.getD true
    if ty = "paragraph" then
      let rs := convertTipTapChildren fresh now opts content c
      let withFallback : List DocumentNode × Nat :=
        if rs.1.isEmpty then ([.textNode (fresh rs.2) 1 now "" []], rs.2 + 1)
        else rs
      let idc := idOrFresh fresh preserveIds (attrs.bind (·.nodeId))
        withFallback.2
      (some (.paragraph idc.1 1 now withFallback.1), idc.2)
    else if ty = "blockquote" then
      let r := convertTipTapBlockquote fresh now opts
        (.mk ty attrs content text marks) c
      (some r.1, r.2)
    else if ty = "heading" then
      let level := jsOrNat (attrs.bind (·.level)) 1
      let rs := convertTipTapChildren fresh now opts content c
      let withFallback : List DocumentNode × Nat :=
        if rs.1.isEmpty then ([.textNode (fresh rs.2) 1 now "" []], rs.2 + 1)
        else rs
      let idc := idOrFresh fresh preserveIds (attrs.bind (·.nodeId))
        withFallback.2
      (some (.heading idc.1 1 now level withFallback.1), idc.2)
    else if ty = "text" then
      if marks.any (fun m => m.type = "interjection") then
        let r := convertTipTapInterjection fresh now
          (.mk ty attrs content text marks) c
        (some r.1, r.2)
      else
        let otherMarks := marks.filter fun m => m.type ≠ "interjection"
        let idc := idOrFresh fresh preserveIds (attrs.bind (·.nodeId)) c
        (some (.textNode idc.1 1 now text otherMarks), idc.2)
    else
      (none, c)

/-- Children loop shared by the paragraph and heading reconstructions. -/
def convertTipTapChildren (fresh : Nat → String) (now : Nat)
    (opts : ConversionOptions) :
    List TipTapNode → Nat → List DocumentNode × Nat
  | [], c => ([], c)
  | n :: ns, c =>
    let r := convertTipTapToNode fresh now opts n c
    let rs := convertTipTapChildren fresh now opts ns r.2
    match r.1 with
    | some d => (d :: rs.1, rs.2)
    | none => rs

end

/-- JavaScript `s.startsWith(p)`: `p` is a prefix of `s` (on the character
lists underlying the strings). -/
def jsStartsWith (s p : String) : Bool :=
  p.data.isPrefixOf s.data

/-- Strip `/^Primary References?:\s*/` (the passage label). -/
def stripPassagePrefix (text : String) : String :=
  if jsStartsWith text "Primary References:" then
    ⟨(text.data.drop "Primary References:".length).dropWhile jsIsSpace⟩
  else if jsStartsWith text "Primary Reference:" then
    ⟨(text.data.drop "Primary Reference:".length).dropWhile jsIsSpace⟩
  else text

/-- Strip `/^Speaker:\s*/` (the speaker label). -/
def stripSpeakerPrefix (text : String) : String :=
  if jsStartsWith text "Speaker:" then
    ⟨(text.data.drop "Speaker:".length).dropWhile jsIsSpace⟩
  else text

/-- Accumulator state of the `tipTapJsonToAst` loop over `doc.content`. -/
structure TopLoopState where
  isFirstNode : Bool
  title : Option String
  biblePassage : Option String
  speaker : Option String
  children : List DocumentNode
  counter : Nat

/-- The `for (const node of doc.content)` loop of `tipTapJsonToAst`:
absorb the synthetic title heading (first node, level 1, centered only),
strip the metadata label paragraphs by literal text-prefix match, skip
horizontal rules, and convert everything else. -/
def processTopNodes (fresh : Nat → String) (now : Nat)
    (opts : ConversionOptions) :
    List TipTapNode → TopLoopState → TopLoopState
  | [], st => st
  | node :: rest, st =>
    if node.type = "heading" ∧ (node.attrs.bind (·.level)) = some 1 ∧
        ¬ jsTruthy st.title ∧ st.isFirstNode ∧
        (node.attrs.bind (·.textAlign)) = some "center" then
      processTopNodes fresh now opts rest
        { st with title := some (extractText node), isFirstNode := false }
    else
      let st := { st with isFirstNode := false }
      if node.type = "paragraph" ∧
          (jsStartsWith (extractText node) "Primary Reference:" ∨
           jsStartsWith (extractText node) "Primary References:") then
        processTopNodes fresh now opts rest
          { st with biblePassage := some (stripPassagePrefix (extractText node)) }
      else if node.type = "paragraph" ∧
          (jsStartsWith (extractText node) "References from the Sermon:" ∨
           jsStartsWith (extractText node) "Tags:") then
        processTopNodes fresh now opts rest st
      else if node.type = "paragraph" ∧
          jsStartsWith (extractText node) "Speaker:" then
        processTopNodes fresh now opts rest
          { st with speaker := some (stripSpeakerPrefix (extractText node)) }
      else if node.type = "horizontalRule" then
        processTopNodes fresh now opts rest st
      else
        let r := convertTipTapToNode fresh now opts node st.counter
        match r.1 with
        | some d =>
          processTopNodes fresh now opts rest
            { st with children := st.children ++ [d], counter := r.2 }
        | none =>
          processTopNodes fresh now opts rest { st with counter := r.2 }

/-- Initial accumulator of the `tipTapJsonToAst` loop. -/
def initialTopLoopState : TopLoopState where
  isFirstNode := true
  title := none
  biblePassage := none
  speaker := none
  children := []
  counter := 0

/-- Function `tipTapJsonToAst` from `astTipTapConverter.ts`. The id supply
starts at counter `0`; `now` is the `createTimestamp` clock. The `try` can
never throw in this pure model; the `warnings` local stays empty on the main
path, so only the empty/invalid-content guard reports a warning. -/
def tipTapJsonToAst (fresh : Nat → String) (now : Nat)
    (doc : TipTapDocument) (options : ConversionOptions := {})
    (existingRoot : Option DocumentRootNode := none) :
    ConversionResult DocumentRootNode :=
  let preserveIds := options.preserveIds.getD true
  match doc.content with
  | none =>
    let rootId :=
      if preserveIds then jsOrStr (existingRoot.map (·.id)) "root-1"
      else fresh 0
    { success := true
      data := some
        { id := rootId
          version := 1
          updatedAt := now
          title := existingRoot.bind (·.title)
          biblePassage := existingRoot.bind (·.biblePassage)
          speaker := existingRoot.bind (·.speaker)
          tags := none
          children := [] }
      warnings := some ["Document content was empty or invalid"] }
  | some nodes =>
    let st := processTopNodes fresh now options nodes initialTopLoopState
    let rootId :=
      if preserveIds then jsOrStr (existingRoot.map (·.id)) "root-1"
      else fresh st.counter
    { success := true
      data := some
        { id := rootId
          version := 1
          updatedAt := now
          title := jsOrStrOpt st.title (existingRoot.bind (·.title))
          biblePassage :=
            jsOrStrOpt st.biblePassage (existingRoot.bind (·.biblePassage))
          speaker := jsOrStrOpt st.speaker (existingRoot.bind (·.speaker))
          tags := none
          children := st.children }
      warnings := none }

-- ===========================================================================
-- Statement vocabulary for the round-trip claim
-- ===========================================================================

mutual

/-- Concatenated plain text content of an AST node (the text rendered by
depth-first traversal, as in `astToHtml` / `extractText`). -/
def nodeText : DocumentNode → String
  | .paragraph _ _ _ cs => nodesText cs
  | .heading _ _ _ _ cs => nodesText cs
  | .quoteBlock _ _ _ _ cs => nodesText cs
  | .textNode _ _ _ content _ => content
  | .interjection _ _ _ content _ => content

/-- List version of `nodeText`. -/
def nodesText : List DocumentNode → String
  | [] => ""
  | n :: ns => nodeText n ++ nodesText ns

end

mutual

/-- Pre-order list of the structural nodes (type tag and id) of an AST
node: paragraphs, headings and quote blocks. -/
def skeleton : DocumentNode → List (String × String)
  | .paragraph i _ _ cs => ("paragraph", i) :: skeletonList cs
  | .heading i _ _ _ cs => ("heading", i) :: skeletonList cs
  | .quoteBlock i _ _ _ cs => ("quote_block", i) :: skeletonList cs
  | .textNode _ _ _ _ _ => []
  | .interjection _ _ _ _ _ => []

/-- List version of `skeleton`. -/
def skeletonList : List DocumentNode → List (String × String)
  | [] => []
  | n :: ns => skeleton n ++ skeletonList ns

end

/-- Quote-block children must be text or interjection nodes
(`children: (TextNode | InterjectionNode)[]` in the source's type). -/
def inlineOnly : List DocumentNode → Bool
  | [] => true
  | .textNode _ _ _ _ _ :: ns => inlineOnly ns
  | .interjection _ _ _ _ _ :: ns => inlineOnly ns
  | _ => false

mutual

/-- Well-formedness (validity) of an AST subtree: every quote block's
children are inline (text/interjection) nodes, as the source's types
guarantee, and every structural node carries a non-empty id (ids are
non-empty `node-…` strings minted by `createNodeId`; an empty id is falsy
in JavaScript and would not survive `attrs.nodeId ? … : createNodeId()`). -/
def wellFormed : DocumentNode → Bool
  | .paragraph i _ _ cs => i ≠ "" && wellFormedList cs
  | .heading i _ _ _ cs => i ≠ "" && wellFormedList cs
  | .quoteBlock i _ _ _ cs => i ≠ "" && inlineOnly cs
  | .textNode _ _ _ _ _ => true
  | .interjection _ _ _ _ _ => true

/-- List version of `wellFormed`. -/
def wellFormedList : List DocumentNode → Bool
  | [] => true
  | n :: ns => wellFormed n && wellFormedList ns

end

/-- The literal metadata-label prefixes recognized (and stripped) by
`tipTapJsonToAst`. -/
def metadataPrefixes : List String :=
  ["Primary Reference:", "Primary References:",
   "References from the Sermon:", "Tags:", "Speaker:"]

/-- No top-level paragraph's rendered text starts with a metadata label
prefix (the documented fragility of the converter). -/
def cleanTopLevel (children : List DocumentNode) : Bool :=
  children.all fun n =>
    match n with
    | .paragraph _ _ _ cs =>
      metadataPrefixes.all fun p => ¬ jsStartsWith (nodesText cs) p
    | _ => true

/-- Some top-level child survives the forward conversion (everything does,
except empty text nodes and — with `includeInterjections := false` —
interjection nodes; under default options exactly the empty text nodes are
dropped). -/
def someChildConvertible (children : List DocumentNode) : Bool :=
  children.any fun n =>
    match n with
    | .textNode _ _ _ content _ => content ≠ ""
    | _ => true

-- ===========================================================================
-- Shared helper lemmas
-- ===========================================================================

/-- A pointwise-identity map is the identity. -/
theorem map_eq_self_of_eq {α : Type} (l : List α) (f : α → α)
    (h : ∀ x ∈ l, f x = x) : l.map f = l := by
  induction l with
  | nil => rfl
  | cons a t ih =>
    simp only [List.map_cons]
    rw [h a (by simp), ih fun x hx => h x (by simp [hx])]

/-- Mapping with an everywhere-`isSome` function and collapsing the options
preserves the length. -/
theorem reduceOption_length_of_isSome {α β : Type} (g : α → Option β)
    (l : List α) (h : ∀ x ∈ l, (g x).isSome) :
    ((l.map g).reduceOption).length = l.length := by
  induction l with
  | nil => rfl
  | cons a t ih =>
    have ha := h a (by simp)
    cases hg : g a with
    | none => rw [hg] at ha; simp at ha
    | some b =>
      simp only [List.map_cons, hg, List.reduceOption_cons_of_some,
        List.length_cons]
      rw [ih fun x hx => h x (by simp [hx])]

-- ===========================================================================
-- C3: reference parsing
-- ===========================================================================

/-- C3: `parseReference` accepts exactly the strings matching the grammar
`^([1-3]?\s*[A-Za-z]+(?:\s+[A-Za-z]+)*)\s*(\d+):(\d+)(?:-(\d+))?$` after
trimming: `"John 3:16"` parses to book `John`, chapter `3`, verse `16` and
no range end; `"1 Corinthians 13:4-7"` parses to book `1 Corinthians`,
chapter `13`, verses `4`–`7`; `"John"`, `"3:16"` and `""` are invalid; and
for an invalid reference the lookup service is never invoked. -/
theorem C3_parseReference_grammar :
    parseReference "John 3:16" =
      { valid := true, book := some "John", chapter := some 3,
        verseStart := some 16, verseEnd := none } ∧
    parseReference "1 Corinthians 13:4-7" =
      { valid := true, book := some "1 Corinthians", chapter := some 13,
        verseStart := some 4, verseEnd := some 7 } ∧
    parseReference "John" = { valid := false } ∧
    parseReference "3:16" = { valid := false } ∧
    parseReference "" = { valid := false } ∧
    (∀ s : String, (parseReference s).valid = true ↔
      (matchReferencePattern (jsTrim s).data).isSome = true) ∧
    (∀ (onLookupVerse : String → BibleLookupResult) (reference : String),
      (parseReference reference).valid = false →
      (performLookup onLookupVerse reference).2 = false) := by
  refine ⟨by decide, by decide, by decide, by decide, by decide, ?_, ?_⟩
  · intro s
    simp only [parseReference]
    cases h : matchReferencePattern (jsTrim s).data with
    | none => simp
    | some g =>
      obtain ⟨a, b, d, e⟩ := g
      simp
  · intro onLookupVerse reference h
    simp only [performLookup, h, Bool.false_eq_true, if_false]

/-- Witness for C3 at the concrete invalid input `"John"`. -/
theorem C3_parseReference_grammar_witness :
    (parseReference "John").valid = false ∧
    (performLookup (fun _ => { success := true }) "John").2 = false :=
  ⟨by decide,
    C3_parseReference_grammar.2.2.2.2.2.2 (fun _ => { success := true })
      "John" (by decide)⟩

-- ===========================================================================
-- C4: merge preview
-- ===========================================================================

/-- Counterexample to C4 as stated: with overlapping paragraph ranges
`[0, 100]` and `[10, 20]`, `previewMerge` reports `endOffset = 20` — the
`endOffset` of the paragraph that is last in ascending `startOffset` order —
while the largest paragraph `endOffset` is `100`. -/
theorem C4_previewMerge_counterexample :
    ((previewMerge
        (fun id =>
          if id = "a" then some { id := "a", text := "x", startOffset := 0, endOffset := 100 }
          else if id = "b" then some { id := "b", text := "y", startOffset := 10, endOffset := 20 }
          else none)
        false ["a", "b"]).map (·.endOffset) = some 20) ∧
    max (100 : Int) 20 = 100 ∧ (20 : Int) ≠ 100 := by
  refine ⟨by decide, by decide, by decide⟩

/-- C4 (amended): for two or more paragraph ids that all resolve,
`previewMerge` returns a preview whose `mergedText` joins the trimmed texts
by a single space in ascending `startOffset` order (stable in the input
order for ties), whose `startOffset` is the smallest paragraph
`startOffset`, whose `endOffset` is the `endOffset` of the paragraph that is
last in ascending `startOffset` order (which is the largest `endOffset`
whenever the paragraph ranges are non-overlapping), and whose
`requiresConfirmation` is `!autoConfirm`; for fewer than two ids it returns
`null`. -/
theorem C4_previewMerge_spec :
    (∀ (g : String → Option ParagraphInfo) (autoConfirm : Bool)
       (paragraphIds : List String), paragraphIds.length < 2 →
       previewMerge g autoConfirm paragraphIds = none) ∧
    (∀ (g : String → Option ParagraphInfo) (autoConfirm : Bool)
       (paragraphIds : List String),
       2 ≤ paragraphIds.length →
       (∀ id ∈ paragraphIds, (g id).isSome) →
       ∃ p : MergePreview,
         previewMerge g autoConfirm paragraphIds = some p ∧
         p.paragraphIds = paragraphIds ∧
         p.requiresConfirmation = !autoConfirm ∧
         ∃ sorted : List ParagraphInfo,
           sorted.Perm ((paragraphIds.map g).reduceOption) ∧
           sorted.Sorted byStartOffset ∧
           p.mergedText =
             String.intercalate " " (sorted.map fun q => jsTrim q.text) ∧
           ∃ hne : sorted ≠ [],
             p.startOffset = (sorted.head hne).startOffset ∧
             p.endOffset = (sorted.getLast hne).endOffset ∧
             ∀ q ∈ (paragraphIds.map g).reduceOption,
               p.startOffset ≤ q.startOffset) := by
  constructor
  · intro g autoConfirm ids h
    simp only [previewMerge, if_pos h]
  · intro g autoConfirm ids h2 hall
    have hlen : ((ids.map g).reduceOption).length = ids.length :=
      reduceOption_length_of_isSome g ids hall
    set infos := (ids.map g).reduceOption with hinfos
    set sorted := infos.insertionSort byStartOffset with hsorted
    have hperm : sorted.Perm infos := List.perm_insertionSort _ _
    have hslen : sorted.length = ids.length := by
      rw [hperm.length_eq, hlen]
    have hnot : ¬ ids.length < 2 := by omega
    have hnot2 : ¬ sorted.length < 2 := by omega
    have hne : sorted ≠ [] := by
      intro hx
      rw [hx] at hslen
      simp at hslen
      omega
    have hmain : previewMerge g autoConfirm ids = some
        { paragraphIds := ids
          mergedText :=
            String.intercalate " " (sorted.map fun q => jsTrim q.text)
          startOffset := ((sorted.head?).map (·.startOffset)).getD 0
          endOffset := ((sorted.getLast?).map (·.endOffset)).getD 0
          requiresConfirmation := !autoConfirm } := by
      simp only [previewMerge, if_neg hnot, ← hinfos, ← hsorted,
        if_neg hnot2]
    refine ⟨_, hmain, rfl, rfl, sorted, hperm,
      List.sorted_insertionSort _ _, rfl, hne, ?_, ?_, ?_⟩
    · simp [List.head?_eq_head hne]
    · simp [List.getLast?_eq_getLast sorted hne]
    · intro q hq
      have hq' : q ∈ sorted := hperm.mem_iff.mpr hq
      obtain ⟨a, t, hat⟩ := List.exists_cons_of_ne_nil hne
      have hsort := List.sorted_insertionSort byStartOffset infos
      rw [← hsorted] at hsort
      simp only [hat, List.head?_cons, Option.map_some, Option.getD_some]
      rw [hat] at hsort hq'
      rcases List.mem_cons.mp hq' with h | h
      · simp [h]
      · have hle := (List.sorted_cons.mp hsort).1 q h
        simp only [byStartOffset] at hle
        simpa using hle

/-- Witness for C4 at concrete inputs: two resolving ids, and a
single-element list. -/
theorem C4_previewMerge_spec_witness :
    previewMerge
      (fun id =>
        if id = "a" then some { id := "a", text := " A ", startOffset := 0, endOffset := 3 }
        else if id = "b" then some { id := "b", text := "B", startOffset := 4, endOffset := 5 }
        else none) false ["z"] = none ∧
    ∃ p : MergePreview,
      previewMerge
        (fun id =>
          if id = "a" then some { id := "a", text := " A ", startOffset := 0, endOffset := 3 }
          else if id = "b" then some { id := "b", text := "B", startOffset := 4, endOffset := 5 }
          else none) true ["a", "b"] = some p ∧
      p.paragraphIds = ["a", "b"] ∧ p.requiresConfirmation = !true := by
  constructor
  · exact C4_previewMerge_spec.1 _ false ["z"] (by decide)
  · obtain ⟨p, h1, h2, h3, -⟩ :=
      C4_previewMerge_spec.2
        (fun id =>
          if id = "a" then some { id := "a", text := " A ", startOffset := 0, endOffset := 3 }
          else if id = "b" then some { id := "b", text := "B", startOffset := 4, endOffset := 5 }
          else none) true ["a", "b"] (by decide) (by decide)
    exact ⟨p, h1, h2, h3⟩

-- ===========================================================================
-- C5: stale quote id is a no-op
-- ===========================================================================

/-- Counterexample to C5 as stated: `REMOVE_QUOTE` is also a mutating quote
action targeting an id, and on a state whose `focusedQuoteId` is a dangling
pointer to the absent id (reachable via `SET_FOCUSED_QUOTE`, which does not
validate), it clears that pointer, returning a state different from the
input. -/
theorem C5_stale_noop_counterexample :
    let s0 : QuoteReviewContextState :=
      { initialState with review :=
          { initialReviewState with focusedQuoteId := some "x" } }
    ("x" ∉ s0.quotes.map (·.id)) ∧
    quoteReviewReducer 0 s0 (.removeQuote "x") ≠ s0 := by
  constructor
  · decide
  · intro h
    have := congrArg (fun s => s.review.focusedQuoteId) h
    simp [quoteReviewReducer, initialState, initialReviewState] at this

/-- C5 (amended): for a quote id absent from `state.quotes`, `UPDATE_QUOTE`
with any updates is an exact no-op (and the reducer is total, so nothing is
thrown); `REMOVE_QUOTE` leaves the quotes list unchanged and is an exact
no-op unless `review.focusedQuoteId` was already a stale pointer equal to
that id, in which case only that pointer is cleared. -/
theorem C5_stale_update_noop (now : Int) (s : QuoteReviewContextState)
    (quoteId : String) (updates : QuoteReviewItemPatch)
    (habs : quoteId ∉ s.quotes.map (·.id)) :
    quoteReviewReducer now s (.updateQuote quoteId updates) = s ∧
    (quoteReviewReducer now s (.removeQuote quoteId)).quotes = s.quotes ∧
    (s.review.focusedQuoteId ≠ some quoteId →
      quoteReviewReducer now s (.removeQuote quoteId) = s) := by
  have hid : ∀ q ∈ s.quotes, q.id ≠ quoteId := by
    intro q hq heq
    exact habs (List.mem_map.mpr ⟨q, hq, heq⟩)
  have hfilter : (s.quotes.filter fun q => q.id ≠ quoteId) = s.quotes :=
    List.filter_eq_self.mpr fun q hq => by
      simpa using hid q hq
  refine ⟨?_, ?_, ?_⟩
  · simp only [quoteReviewReducer]
    rw [map_eq_self_of_eq _ _ fun q hq => by rw [if_neg (hid q hq)]]
  · simp only [quoteReviewReducer]
    exact hfilter
  · intro hfoc
    simp only [quoteReviewReducer, hfilter, if_neg hfoc]

/-- Witness for C5 at a concrete state containing one quote `"a"` and the
absent id `"b"`. -/
theorem C5_stale_update_noop_witness :
    let s0 : QuoteReviewContextState :=
      { initialState with quotes := [{ id := "a", text := "t" }] }
    quoteReviewReducer 7 s0 (.updateQuote "b" { text := some "changed" }) = s0 ∧
    (quoteReviewReducer 7 s0 (.removeQuote "b")).quotes = s0.quotes ∧
    (s0.review.focusedQuoteId ≠ some "b" →
      quoteReviewReducer 7 s0 (.removeQuote "b") = s0) :=
  C5_stale_update_noop 7 _ "b" { text := some "changed" } (by decide)

-- ===========================================================================
-- C6: event log pruning
-- ===========================================================================

/-- Counterexample to C6 as stated: with `maxEvents = 0` and a non-empty
log, `eventLog.slice(-0)` is `eventLog.slice(0)` — the whole array — so the
pruned state keeps all entries instead of the most recent `0`. -/
theorem C6_pruneEventLog_counterexample :
    let st : DocumentState :=
      { root := { id := "r", version := 1, updatedAt := 0, children := [] }
        eventLog := [{ tag := "e", payload := "1" }]
        undoStack := []
        redoStack := [] }
    st.eventLog.length = 1 ∧ 1 > 0 ∧
    (pruneEventLog st 0).eventLog = [{ tag := "e", payload := "1" }] ∧
    (pruneEventLog st 0).eventLog.length ≠ 0 := by
  decide

/-- C6 (amended): `pruneEventLog` returns the state unchanged when the log
has at most `maxEvents` entries; otherwise, for `maxEvents ≥ 1`, it keeps
exactly the most recent `maxEvents` entries (a suffix of the log, oldest
dropped first), clears both the undo and redo stacks, and leaves `root`
unchanged. (For `maxEvents = 0` the source's `slice(-0)` keeps the whole
log while still clearing the stacks.) -/
theorem C6_pruneEventLog_spec (st : DocumentState) (maxEvents : Nat) :
    (st.eventLog.length ≤ maxEvents → pruneEventLog st maxEvents = st) ∧
    (1 ≤ maxEvents → maxEvents < st.eventLog.length →
      (pruneEventLog st maxEvents).eventLog
          = st.eventLog.drop (st.eventLog.length - maxEvents) ∧
      (pruneEventLog st maxEvents).eventLog.length = maxEvents ∧
      (pruneEventLog st maxEvents).eventLog <:+ st.eventLog ∧
      (pruneEventLog st maxEvents).undoStack = [] ∧
      (pruneEventLog st maxEvents).redoStack = [] ∧
      (pruneEventLog st maxEvents).root = st.root) := by
  constructor
  · intro h
    simp only [pruneEventLog, if_pos h]
  · intro h1 h2
    have hnot : ¬ st.eventLog.length ≤ maxEvents := by omega
    have hn0 : maxEvents ≠ 0 := by omega
    have heq : (pruneEventLog st maxEvents).eventLog
        = st.eventLog.drop (st.eventLog.length - maxEvents) := by
      simp [pruneEventLog, if_neg hnot, jsSliceNeg, if_neg hn0]
    refine ⟨heq, ?_, ?_, ?_, ?_, ?_⟩
    · rw [heq]
      simp only [List.length_drop]
      omega
    · rw [heq]
      exact List.drop_suffix _ _
    · simp [pruneEventLog, if_neg hnot]
    · simp [pruneEventLog, if_neg hnot]
    · simp [pruneEventLog, if_neg hnot]

/-- Witness for C6: a three-event log pruned to two, and an untouched
three-event log with `maxEvents = 3`. -/
theorem C6_pruneEventLog_spec_witness :
    let st : DocumentState :=
      { root := { id := "r", version := 1, updatedAt := 0, children := [] }
        eventLog := [{ tag := "a", payload := "1" }, { tag := "b", payload := "2" },
          { tag := "c", payload := "3" }]
        undoStack := []
        redoStack := [] }
    ((pruneEventLog st 2).eventLog
        = st.eventLog.drop (st.eventLog.length - 2)) ∧
    (pruneEventLog st 2).eventLog.length = 2 ∧
    (pruneEventLog st 2).undoStack = [] ∧
    pruneEventLog st 3 = st := by
  refine ⟨?_, ?_, ?_, ?_⟩
  · exact ((C6_pruneEventLog_spec _ 2).2 (by decide) (by decide)).1
  · exact ((C6_pruneEventLog_spec _ 2).2 (by decide) (by decide)).2.1
  · exact ((C6_pruneEventLog_spec _ 2).2 (by decide) (by decide)).2.2.2.1
  · exact (C6_pruneEventLog_spec _ 3).1 (by decide)

/-- C10: `REMOVE_QUOTE` removes every quote of the given id from the list,
nulls `review.focusedQuoteId` exactly when it pointed at that id (so it can
never refer to the removed quote afterwards), and leaves every other state
slice — and the rest of the `review` slice — unchanged. -/
theorem C10_removeQuote_spec (now : Int) (s : QuoteReviewContextState)
    (quoteId : String) :
    (quoteReviewReducer now s (.removeQuote quoteId)).quotes
        = s.quotes.filter (fun item => item.id ≠ quoteId) ∧
    (quoteReviewReducer now s (.removeQuote quoteId)).review.focusedQuoteId
        = (if s.review.focusedQuoteId = some quoteId then none
           else s.review.focusedQuoteId) ∧
    (quoteReviewReducer now s (.removeQuote quoteId)).review.focusedQuoteId
        ≠ some quoteId ∧
    (quoteReviewReducer now s (.removeQuote quoteId)).review.isReviewModeActive
        = s.review.isReviewModeActive ∧
    (quoteReviewReducer now s (.removeQuote quoteId)).review.reviewedQuoteIds
        = s.review.reviewedQuoteIds ∧
    (quoteReviewReducer now s (.removeQuote quoteId)).review.panelOpen
        = s.review.panelOpen ∧
    (quoteReviewReducer now s (.removeQuote quoteId)).review.panelWidth
        = s.review.panelWidth ∧
    (quoteReviewReducer now s (.removeQuote quoteId)).review.bannerDismissed
        = s.review.bannerDismissed ∧
    (quoteReviewReducer now s (.removeQuote quoteId)).boundaryEdit
        = s.boundaryEdit ∧
    (quoteReviewReducer now s (.removeQuote quoteId)).boundaryDrag
        = s.boundaryDrag ∧
    (quoteReviewReducer now s (.removeQuote quoteId)).creation = s.creation ∧
    (quoteReviewReducer now s (.removeQuote quoteId)).interjectionEdit
        = s.interjectionEdit ∧
    (quoteReviewReducer now s (.removeQuote quoteId)).panelFilter
        = s.panelFilter := by
  refine ⟨rfl, rfl, ?_, rfl, rfl, rfl, rfl, rfl, rfl, rfl, rfl, rfl, rfl⟩
  simp only [quoteReviewReducer]
  by_cases h : s.review.focusedQuoteId = some quoteId
  · simp [h]
  · simp only [if_neg h]
    exact h

-- ===========================================================================
-- C7: interjection candidates are never auto-confirmed
-- ===========================================================================

/-- Every candidate built by `detectInterjections` starts unconfirmed and
unrejected, with confidence at least the effective display threshold. -/
theorem detectInterjections_flags (threshold : Rat)
    (highConfidenceOnly : Bool) (text : String) :
    ∀ c ∈ detectInterjections threshold highConfidenceOnly text,
      c.confirmed = false ∧ c.rejected = false ∧
      (if highConfidenceOnly then HIGH_CONFIDENCE_THRESHOLD else threshold)
        ≤ c.confidence := by
  intro c hc
  simp only [detectInterjections] at hc
  obtain ⟨m, hm, rfl⟩ := List.mem_map.mp hc
  refine ⟨rfl, rfl, ?_⟩
  have := (List.mem_filter.mp hm).2
  simpa using this

/-- C7: candidates produced by `detectInterjections` always carry
`confirmed = false` and `rejected = false`, whatever their confidence (the
threshold only filters which candidates are returned); and in the reducer a
pending candidate is confirmed at index `i` only when it was already
confirmed, or the action is `CONFIRM_INTERJECTION_CANDIDATE i`, or the
whole list was replaced by a `SET_PENDING_INTERJECTION_CANDIDATES` payload
already confirmed at `i` — in particular, after setting the pending list
from `detectInterjections` output, no candidate is confirmed or rejected. -/
theorem C7_interjections_never_auto_confirmed :
    (∀ (threshold : Rat) (highConfidenceOnly : Bool) (text : String),
      ∀ c ∈ detectInterjections threshold highConfidenceOnly text,
        c.confirmed = false ∧ c.rejected = false ∧
        (if highConfidenceOnly then HIGH_CONFIDENCE_THRESHOLD else threshold)
          ≤ c.confidence) ∧
    (∀ (now : Int) (s : QuoteReviewContextState) (a : QuoteReviewAction)
       (i : Nat) (c' : InterjectionCandidate),
      ((quoteReviewReducer now s a).interjectionEdit.pendingCandidates)[i]?
          = some c' →
      c'.confirmed = true →
      (∃ c, (s.interjectionEdit.pendingCandidates)[i]? = some c ∧
        c.confirmed = true) ∨
      a = .confirmInterjectionCandidate i ∨
      (∃ l, a = .setPendingInterjectionCandidates l ∧
        ∃ c, l[i]? = some c ∧ c.confirmed = true)) ∧
    (∀ (now : Int) (s : QuoteReviewContextState) (threshold : Rat)
       (highConfidenceOnly : Bool) (text : String) (i : Nat)
       (c' : InterjectionCandidate),
      (quoteReviewReducer now s (.setPendingInterjectionCandidates
          (detectInterjections threshold highConfidenceOnly
            text))).interjectionEdit.pendingCandidates[i]? = some c' →
      c'.confirmed = false ∧ c'.rejected = false) := by
  refine ⟨detectInterjections_flags, ?_, ?_⟩
  · intro now s a i c' h hc
    cases a
    case confirmInterjectionCandidate j =>
      by_cases hij : i = j
      · subst hij
        exact Or.inr (Or.inl rfl)
      · left
        refine ⟨c', ?_, hc⟩
        simp only [quoteReviewReducer] at h
        cases hj : (s.interjectionEdit.pendingCandidates)[j]? with
        | none => simpa only [hj] using h
        | some cand =>
          simp only [hj] at h
          rwa [List.getElem?_set_ne (Ne.symm hij)] at h
    case rejectInterjectionCandidate j =>
      simp only [quoteReviewReducer] at h
      by_cases hij : i = j
      · subst hij
        cases hj : (s.interjectionEdit.pendingCandidates)[i]? with
        | none =>
          simp only [hj] at h
          exact Or.inl ⟨c', h, hc⟩
        | some cand =>
          simp only [hj] at h
          have hlt : i < s.interjectionEdit.pendingCandidates.length := by
            by_contra hge
            rw [List.getElem?_eq_none (by omega)] at hj
            exact absurd hj (by simp)
          rw [List.getElem?_set_self hlt] at h
          obtain rfl : _ = c' := Option.some.inj h
          simp at hc
      · cases hj : (s.interjectionEdit.pendingCandidates)[j]? with
        | none =>
          simp only [hj] at h
          exact Or.inl ⟨c', h, hc⟩
        | some cand =>
          simp only [hj] at h
          rw [List.getElem?_set_ne (Ne.symm hij)] at h
          exact Or.inl ⟨c', h, hc⟩
    case setPendingInterjectionCandidates l =>
      exact Or.inr (Or.inr ⟨l, rfl, c', h, hc⟩)
    case enterInterjectionEditMode qid =>
      simp [quoteReviewReducer] at h
    case exitInterjectionEditMode =>
      simp [quoteReviewReducer, initialInterjectionEditState] at h
    case resetState =>
      simp [quoteReviewReducer, initialState,
        initialInterjectionEditState] at h
    all_goals exact Or.inl ⟨c', h, hc⟩
  · intro now s threshold highOnly text i c' h
    simp only [quoteReviewReducer] at h
    have hmem : c' ∈ detectInterjections threshold highOnly text := by
      exact List.getElem?_mem h
    obtain ⟨h1, h2, -⟩ := detectInterjections_flags threshold highOnly text c' hmem
    exact ⟨h1, h2⟩

/-- Witness for C7: at the text `"amen"` the single detected candidate is
unconfirmed with confidence `0.95`; and confirming index `0` on a concrete
one-candidate state satisfies the transition disjunction via the
`CONFIRM_INTERJECTION_CANDIDATE` branch. -/
theorem C7_interjections_witness :
    ({ text := "amen", startOffset := 0, endOffset := 4, confirmed := false,
       rejected := false, confidence := mkRat 19 20,
       context := some "Common affirmation" } : InterjectionCandidate).confirmed
        = false ∧
    (mkRat 19 20 ≥ (if false then HIGH_CONFIDENCE_THRESHOLD else mkRat 1 2)) ∧
    ((∃ c, (({ initialState with interjectionEdit :=
          { initialInterjectionEditState with pendingCandidates :=
              [{ text := "amen", startOffset := 0, endOffset := 4,
                 confirmed := false, rejected := false,
                 confidence := mkRat 19 20 }] } } :
        QuoteReviewContextState).interjectionEdit.pendingCandidates)[0]?
          = some c ∧ c.confirmed = true) ∨
      QuoteReviewAction.confirmInterjectionCandidate 0
          = .confirmInterjectionCandidate 0 ∨
      (∃ l, QuoteReviewAction.confirmInterjectionCandidate 0
          = .setPendingInterjectionCandidates l ∧
        ∃ c, l[0]? = some c ∧ c.confirmed = true)) := by
  have hflags := C7_interjections_never_auto_confirmed.1 (mkRat 1 2) false "amen"
    { text := "amen", startOffset := 0, endOffset := 4, confirmed := false,
      rejected := false, confidence := mkRat 19 20,
      context := some "Common affirmation" } (by decide)
  refine ⟨hflags.1, ?_, ?_⟩
  · simpa using hflags.2.2
  · exact C7_interjections_never_auto_confirmed.2.1 0 _
      (.confirmInterjectionCandidate 0) 0
      { text := "amen", startOffset := 0, endOffset := 4, confirmed := true,
        rejected := false, confidence := mkRat 19 20 }
      (by decide) rfl

-- ===========================================================================
-- C2: boundary drag protocol
-- ===========================================================================

/-- Invariant of a drag-update run: the drag slice keeps its quote id, edge
and original offset; the current offset tracks the last update; the
last-committed ref is untouched; and the preview trace is exactly one
preview per update holding the non-dragged edge at the original offset. -/
theorem runDragUpdates_spec (now : Int)
    (docNodes : Option (List (String × DocNodeInfo))) (q : String)
    (e : DragEdge) (off0 : Int) :
    ∀ (offsets : List Int) (hs : BoundaryHookState),
    hs.ctx.boundaryDrag.isDragging = true →
    hs.ctx.boundaryDrag.quoteId = some q →
    hs.ctx.boundaryDrag.edge = some e →
    hs.ctx.boundaryDrag.originalOffset = off0 →
    ((runDragUpdates now docNodes hs offsets).1.ctx.boundaryDrag.isDragging
        = true ∧
     (runDragUpdates now docNodes hs offsets).1.ctx.boundaryDrag.quoteId
        = some q ∧
     (runDragUpdates now docNodes hs offsets).1.ctx.boundaryDrag.edge
        = some e ∧
     (runDragUpdates now docNodes hs offsets).1.ctx.boundaryDrag.originalOffset
        = off0 ∧
     (runDragUpdates now docNodes hs offsets).1.ctx.boundaryDrag.currentOffset
        = offsets.getLastD hs.ctx.boundaryDrag.currentOffset ∧
     (runDragUpdates now docNodes hs offsets).1.lastCommittedOffset
        = hs.lastCommittedOffset) ∧
    (runDragUpdates now docNodes hs offsets).2
        = offsets.map fun o =>
            some (if e = DragEdge.dragStart then (o, off0) else (off0, o)) := by
  intro offsets
  induction offsets with
  | nil =>
    intro hs h1 h2 h3 h4
    simp [runDragUpdates, h1, h2, h3, h4, List.getLastD]
  | cons o os ih =>
    intro hs h1 h2 h3 h4
    have hpv : updateDragPreview hs o =
        some (if e = DragEdge.dragStart then (o, off0) else (off0, o)) := by
      simp only [updateDragPreview, snapToWordBoundary, h1, h2, h3, h4]
      simp
    have hfields :
        (updateDrag now docNodes hs o).ctx.boundaryDrag.isDragging = true ∧
        (updateDrag now docNodes hs o).ctx.boundaryDrag.quoteId = some q ∧
        (updateDrag now docNodes hs o).ctx.boundaryDrag.edge = some e ∧
        (updateDrag now docNodes hs o).ctx.boundaryDrag.originalOffset
            = off0 ∧
        (updateDrag now docNodes hs o).ctx.boundaryDrag.currentOffset = o ∧
        (updateDrag now docNodes hs o).lastCommittedOffset
            = hs.lastCommittedOffset := by
      simp [updateDrag, hpv, quoteReviewReducer, snapToWordBoundary,
        h1, h2, h3, h4]
    obtain ⟨⟨g1, g2, g3, g4, g5, g6⟩, gprev⟩ :=
      ih (updateDrag now docNodes hs o) hfields.1 hfields.2.1 hfields.2.2.1
        hfields.2.2.2.1
    have hrun : runDragUpdates now docNodes hs (o :: os) =
        ((runDragUpdates now docNodes (updateDrag now docNodes hs o) os).1,
         updateDragPreview hs o ::
           (runDragUpdates now docNodes (updateDrag now docNodes hs o) os).2) := by
      simp [runDragUpdates]
    rw [hrun]
    refine ⟨⟨g1, g2, g3, g4, ?_, ?_⟩, ?_⟩
    · rw [g5, hfields.2.2.2.2.1, List.getLastD_cons]
    · rw [g6, hfields.2.2.2.2.2]
    · simp only [List.map_cons, hpv, gprev]

/-- Shape of the commit delivered by `endDrag` on a state satisfying the
drag invariant: a commit happens exactly when the change is significant
(`|currentOffset - lastCommitted| > 5`), and then holds the non-dragged
edge at the original offset and the dragged edge at the current offset. -/
theorem endDrag_commit (now : Int)
    (docNodes : Option (List (String × DocNodeInfo)))
    (hs : BoundaryHookState) (q : String) (e : DragEdge)
    (off0 cur last : Int)
    (h1 : hs.ctx.boundaryDrag.isDragging = true)
    (h2 : hs.ctx.boundaryDrag.quoteId = some q)
    (h3 : hs.ctx.boundaryDrag.edge = some e)
    (h4 : hs.ctx.boundaryDrag.originalOffset = off0)
    (h5 : hs.ctx.boundaryDrag.currentOffset = cur)
    (h6 : hs.lastCommittedOffset = some last) :
    (endDrag now docNodes hs).2 =
      if 5 < (cur - last).natAbs then
        some (q,
          { requiresMerge := (checkParagraphCrossing docNodes
              (if e = DragEdge.dragStart then cur else off0)
              (if e = DragEdge.dragStart then off0 else cur)).1
            paragraphsToMerge := (checkParagraphCrossing docNodes
              (if e = DragEdge.dragStart then cur else off0)
              (if e = DragEdge.dragStart then off0 else cur)).2
            newStartOffset := if e = DragEdge.dragStart then cur else off0
            newEndOffset := if e = DragEdge.dragStart then off0 else cur })
      else none := by
  cases e <;>
    by_cases hsig : 5 < (cur - last).natAbs <;>
      simp [endDrag, h1, h2, h3, h4, h5, h6, hsig]

/-- Counterexample to C2 as stated: dragging the start edge from offset 10
to offset 20 commits the range `(20, 10)`, which violates
`newStartOffset ≤ newEndOffset` — the source never clamps or swaps the
edges. -/
theorem C2_boundary_drag_counterexample :
    (endDrag 0 none
      (updateDrag 0 none
        (startDrag 0 { ctx := initialState, lastCommittedOffset := none }
          "q" DragEdge.dragStart 10) 20)).2
      = some ("q", ⟨false, [], 20, 10⟩) ∧
    ¬ ((20 : Int) ≤ 10) := by
  refine ⟨by decide, by decide⟩

/-- C2 (amended): for every drag sequence, each intermediate preview range
computed by `updateDrag` holds the non-dragged edge fixed at the original
offset (the preview trace is exactly one preview per update with the
dragged edge at the updated offset); and the range committed by `endDrag`
(when the change is significant) has the non-dragged edge at the original
offset and the dragged edge at the last updated offset — the code does not
clamp, so `newStartOffset ≤ newEndOffset` holds only when the final dragged
offset did not cross the fixed edge. -/
theorem C2_boundary_drag_spec (now : Int)
    (docNodes : Option (List (String × DocNodeInfo)))
    (s0 : QuoteReviewContextState) (last0 : Option Int) (q : String)
    (e : DragEdge) (off0 : Int) (offsets : List Int) :
    (runDragUpdates now docNodes
        (startDrag now { ctx := s0, lastCommittedOffset := last0 } q e off0)
        offsets).2
      = offsets.map (fun o =>
          some (if e = DragEdge.dragStart then (o, off0) else (off0, o))) ∧
    (∀ pv ∈ (runDragUpdates now docNodes
        (startDrag now { ctx := s0, lastCommittedOffset := last0 } q e off0)
        offsets).2,
      ∀ a b : Int, pv = some (a, b) →
        (e = DragEdge.dragStart → b = off0) ∧
        (e = DragEdge.dragEnd → a = off0)) ∧
    (∀ (qid : String) (res : BoundaryMutationResult),
      (endDrag now docNodes
        (runDragUpdates now docNodes
          (startDrag now { ctx := s0, lastCommittedOffset := last0 } q e off0)
          offsets).1).2 = some (qid, res) →
      qid = q ∧
      res.newStartOffset
          = (if e = DragEdge.dragStart then offsets.getLastD off0 else off0) ∧
      res.newEndOffset
          = (if e = DragEdge.dragStart then off0 else offsets.getLastD off0)) := by
  obtain ⟨⟨f1, f2, f3, f4, f5, f6⟩, fprev⟩ :=
    runDragUpdates_spec now docNodes q e off0 offsets
      (startDrag now { ctx := s0, lastCommittedOffset := last0 } q e off0)
      rfl rfl rfl rfl
  refine ⟨fprev, ?_, ?_⟩
  · intro pv hpv a b hab
    rw [fprev] at hpv
    obtain ⟨o, -, rfl⟩ := List.mem_map.mp hpv
    constructor
    · intro he
      subst he
      simp at hab
      omega
    · intro he
      subst he
      simp at hab
      omega
  · intro qid res hcommit
    rw [endDrag_commit now docNodes _ q e off0 (offsets.getLastD off0) off0
      f1 f2 f3 f4 f5 (by rw [f6]; simp [startDrag])] at hcommit
    by_cases hsig : ((5 : Nat) < (offsets.getLastD off0 - off0).natAbs)
    · rw [if_pos hsig, Option.some_inj, Prod.mk.injEq] at hcommit
      obtain ⟨rfl, rfl⟩ := hcommit
      exact ⟨rfl, rfl, rfl⟩
    · rw [if_neg hsig] at hcommit
      exact absurd hcommit (by simp)

/-- Witness for C2 at a concrete drag: start edge from 10 through updates
`[30, 40]`, commit `(40, 10)`. -/
theorem C2_boundary_drag_spec_witness :
    (runDragUpdates 0 none
        (startDrag 0 { ctx := initialState, lastCommittedOffset := none }
          "q" DragEdge.dragStart 10) [30, 40]).2
      = [some ((30 : Int), (10 : Int)), some (40, 10)] ∧
    (∀ (qid : String) (res : BoundaryMutationResult),
      (endDrag 0 none
        (runDragUpdates 0 none
          (startDrag 0 { ctx := initialState, lastCommittedOffset := none }
            "q" DragEdge.dragStart 10) [30, 40]).1).2 = some (qid, res) →
      qid = "q" ∧ res.newStartOffset = 40 ∧ res.newEndOffset = 10) := by
  have h := C2_boundary_drag_spec 0 none initialState none "q"
    DragEdge.dragStart 10 [30, 40]
  refine ⟨by simpa using h.1, ?_⟩
  intro qid res hc
  simpa using h.2.2 qid res hc

-- ===========================================================================
-- C8: degenerate editor documents
-- ===========================================================================

/-- Counterexample to C8 as stated: an empty-but-present content array is
truthy in JavaScript, so the `!doc.content || !Array.isArray(doc.content)`
guard does not fire and no warning is attached; conversion still succeeds
with the metadata carried over. -/
theorem C8_empty_document_counterexample :
    let er : DocumentRootNode :=
      { id := "r", version := 1, updatedAt := 0, title := some "T",
        biblePassage := some "P", speaker := some "S", children := [] }
    (tipTapJsonToAst (fun _ => "f") 0 { content := some [] } {} (some er)).success
        = true ∧
    (tipTapJsonToAst (fun _ => "f") 0 { content := some [] } {}
        (some er)).warnings = none := by
  exact ⟨rfl, rfl⟩

/-- C8 (amended): for a document whose `content` is missing or not an
array, `tipTapJsonToAst` succeeds with a minimal root that carries over
`title`, `biblePassage` and `speaker` from the provided `existingRoot`, has
empty children, and attaches the warning `"Document content was empty or
invalid"`; for a document whose `content` is an **empty array** it likewise
succeeds with carried-over metadata and empty children, but attaches no
warning (an empty array passes the truthiness guard). -/
theorem C8_empty_document_spec (fresh : Nat → String) (now : Nat)
    (options : ConversionOptions) (existingRoot : Option DocumentRootNode) :
    ((tipTapJsonToAst fresh now { content := none } options existingRoot).success
        = true ∧
     (∃ root',
       (tipTapJsonToAst fresh now { content := none } options
           existingRoot).data = some root' ∧
       root'.title = existingRoot.bind (·.title) ∧
       root'.biblePassage = existingRoot.bind (·.biblePassage) ∧
       root'.speaker = existingRoot.bind (·.speaker) ∧
       root'.children = []) ∧
     (tipTapJsonToAst fresh now { content := none } options
         existingRoot).warnings
        = some ["Document content was empty or invalid"]) ∧
    ((tipTapJsonToAst fresh now { content := some [] } options
         existingRoot).success = true ∧
     (∃ root',
       (tipTapJsonToAst fresh now { content := some [] } options
           existingRoot).data = some root' ∧
       root'.title = existingRoot.bind (·.title) ∧
       root'.biblePassage = existingRoot.bind (·.biblePassage) ∧
       root'.speaker = existingRoot.bind (·.speaker) ∧
       root'.children = []) ∧
     (tipTapJsonToAst fresh now { content := some [] } options
         existingRoot).warnings = none) := by
  refine ⟨⟨rfl, ⟨_, rfl, rfl, rfl, rfl, rfl⟩, rfl⟩,
    ⟨rfl, ⟨_, rfl, ?_, ?_, ?_, rfl⟩, rfl⟩⟩
  · simp [tipTapJsonToAst, processTopNodes, initialTopLoopState, jsOrStrOpt]
  · simp [tipTapJsonToAst, processTopNodes, initialTopLoopState, jsOrStrOpt]
  · simp [tipTapJsonToAst, processTopNodes, initialTopLoopState, jsOrStrOpt]

-- ===========================================================================
-- C9: synthetic-title recognition
-- ===========================================================================

/-- A TipTap heading always converts to an AST `HeadingNode` (never to
anything else). -/
theorem convertTipTapToNode_heading (fresh : Nat → String) (now : Nat)
    (opts : ConversionOptions) (attrs : Option TTAttrs)
    (content : List TipTapNode) (text : String) (marks : List Mark)
    (c : Nat) :
    ∃ i cs c',
      convertTipTapToNode fresh now opts
          (.mk "heading" attrs content text marks) c
        = (some (.heading i 1 now (jsOrNat (attrs.bind (·.level)) 1) cs), c') := by
  simp only [convertTipTapToNode]
  rw [if_neg (show ¬("heading" : String) = "paragraph" from by decide),
    if_neg (show ¬("heading" : String) = "blockquote" from by decide)]
  exact ⟨_, _, _, rfl⟩

/-- C9: `tipTapJsonToAst` absorbs a heading into `root.title` exactly when
it is the first node, has level 1, and carries `textAlign = 'center'`:
(1) such a first node is consumed into the title accumulator and not
converted into children; (2) a first heading without the center marker —
whatever its level — is converted into children (a `HeadingNode`), leaving
the title accumulator untouched; (3) a heading that is not the first node
is converted into children even when level-1 and centered, provided a
truthy title was already absorbed — and with no absorbed title the
`isFirstNode` flag alone already blocks absorption. -/
theorem C9_title_absorption (fresh : Nat → String) (now : Nat)
    (attrs : TTAttrs) (hcontent : List TipTapNode) (htext : String)
    (hmarks : List Mark) (rest : List TipTapNode) :
    (attrs.level = some 1 → attrs.textAlign = some "center" →
      processTopNodes fresh now {}
          (TipTapNode.mk "heading" (some attrs) hcontent htext hmarks :: rest)
          initialTopLoopState
        = processTopNodes fresh now {} rest
            { initialTopLoopState with
              title := some (extractText
                (TipTapNode.mk "heading" (some attrs) hcontent htext hmarks))
              isFirstNode := false }) ∧
    (attrs.textAlign ≠ some "center" ∨ attrs.level ≠ some 1 →
      ∃ i cs c',
        convertTipTapToNode fresh now {}
            (TipTapNode.mk "heading" (some attrs) hcontent htext hmarks)
            initialTopLoopState.counter
          = (some (.heading i 1 now (jsOrNat attrs.level 1) cs), c') ∧
        processTopNodes fresh now {}
            (TipTapNode.mk "heading" (some attrs) hcontent htext hmarks :: rest)
            initialTopLoopState
          = processTopNodes fresh now {} rest
              { initialTopLoopState with
                isFirstNode := false
                children := [.heading i 1 now (jsOrNat attrs.level 1) cs]
                counter := c' }) ∧
    (∀ st : TopLoopState, st.isFirstNode = false →
      ∃ i cs c',
        convertTipTapToNode fresh now {}
            (TipTapNode.mk "heading" (some attrs) hcontent htext hmarks)
            st.counter
          = (some (.heading i 1 now (jsOrNat attrs.level 1) cs), c') ∧
        processTopNodes fresh now {}
            (TipTapNode.mk "heading" (some attrs) hcontent htext hmarks :: rest)
            st
          = processTopNodes fresh now {} rest
              { st with
                isFirstNode := false
                children := st.children ++ [.heading i 1 now (jsOrNat attrs.level 1) cs]
                counter := c' }) := by
  refine ⟨?_, ?_, ?_⟩
  · intro hl hc
    simp only [processTopNodes]
    rw [if_pos]
    refine ⟨rfl, by simpa using hl, by simp [initialTopLoopState, jsTruthy],
      by simp [initialTopLoopState], by simpa using hc⟩
  · intro hc
    obtain ⟨i, cs, c', hconv⟩ :=
      convertTipTapToNode_heading fresh now {} (some attrs) hcontent htext
        hmarks initialTopLoopState.counter
    refine ⟨i, cs, c', by simpa using hconv, ?_⟩
    simp only [processTopNodes]
    rw [if_neg (by
      intro hcond
      rcases hc with hc | hc
      · exact hc (by simpa using hcond.2.2.2.2)
      · exact hc (by simpa using hcond.2.1))]
    rw [if_neg (by rintro ⟨h, -⟩; simp at h)]
    rw [if_neg (by rintro ⟨h, -⟩; simp at h)]
    rw [if_neg (by rintro ⟨h, -⟩; simp at h)]
    rw [if_neg (by simp [TipTapNode.type])]
    simp only [hconv]
    simp [initialTopLoopState]
  · intro st hst
    obtain ⟨i, cs, c', hconv⟩ :=
      convertTipTapToNode_heading fresh now {} (some attrs) hcontent htext
        hmarks st.counter
    refine ⟨i, cs, c', by simpa using hconv, ?_⟩
    simp only [processTopNodes]
    rw [if_neg (by
      intro hcond
      rw [hst] at hcond
      simpa using hcond.2.2.2.1)]
    rw [if_neg (by rintro ⟨h, -⟩; simp at h)]
    rw [if_neg (by rintro ⟨h, -⟩; simp at h)]
    rw [if_neg (by rintro ⟨h, -⟩; simp at h)]
    rw [if_neg (by simp [TipTapNode.type])]
    simp only [hconv]
    simp [initialTopLoopState]

/-- Witness for C9 at concrete headings: a centered first level-1 heading
becomes the title; a non-centered level-1 heading stays a heading in the
children. -/
theorem C9_title_absorption_witness :
    (processTopNodes (fun _ => "f") 0 {}
        [TipTapNode.mk "heading"
          (some { level := some 1, textAlign := some "center" })
          [TipTapNode.mk "text" none [] "The Title" []] "" []]
        initialTopLoopState
      = processTopNodes (fun _ => "f") 0 {} []
          { initialTopLoopState with
            title := some (extractText
              (TipTapNode.mk "heading"
                (some { level := some 1, textAlign := some "center" })
                [TipTapNode.mk "text" none [] "The Title" []] "" []))
            isFirstNode := false }) ∧
    (∃ i cs c',
      convertTipTapToNode (fun _ => "f") 0 {}
          (TipTapNode.mk "heading" (some { level := some 1 })
            [TipTapNode.mk "text" none [] "User heading" []] "" [])
          initialTopLoopState.counter
        = (some (.heading i 1 0 (jsOrNat (some 1) 1) cs), c') ∧
      processTopNodes (fun _ => "f") 0 {}
          [TipTapNode.mk "heading" (some { level := some 1 })
            [TipTapNode.mk "text" none [] "User heading" []] "" []]
          initialTopLoopState
        = processTopNodes (fun _ => "f") 0 {} []
            { initialTopLoopState with
              isFirstNode := false
              children := [.heading i 1 0 (jsOrNat (some 1) 1) cs]
              counter := c' }) := by
  constructor
  · exact (C9_title_absorption (fun _ => "f") 0
      { level := some 1, textAlign := some "center" }
      [TipTapNode.mk "text" none [] "The Title" []] "" [] []).1 rfl rfl
  · exact (C9_title_absorption (fun _ => "f") 0 { level := some 1 }
      [TipTapNode.mk "text" none [] "User heading" []] "" [] []).2.1
      (Or.inl (by simp))

-- ===========================================================================
-- C1: the round trip through the editor tree
-- ===========================================================================

/-- Under default options the forward conversion drops a node exactly when
it is an empty text node; a dropped node has no rendered text and no
structural entries. -/
theorem convertNode_none (n : DocumentNode)
    (h : convertNodeToTipTap ({} : ConversionOptions) n = none) :
    nodeText n = "" ∧ skeleton n = [] := by
  cases n with
  | paragraph i v u cs => simp [convertNodeToTipTap] at h
  | quoteBlock i v u md cs => simp [convertNodeToTipTap] at h
  | heading i v u level cs => simp [convertNodeToTipTap] at h
  | textNode i v u content marks =>
    by_cases hc : content = ""
    · subst hc; exact ⟨rfl, rfl⟩
    · simp [convertNodeToTipTap, hc] at h
  | interjection i v u content mid => simp [convertNodeToTipTap] at h

/-- If the forward conversion drops all children, they rendered no text and
held no structural entries. -/
theorem convertChildren_eq_nil (ns : List DocumentNode)
    (h : convertChildrenToTipTap ({} : ConversionOptions) ns = []) :
    nodesText ns = "" ∧ skeletonList ns = [] := by
  induction ns with
  | nil => exact ⟨rfl, rfl⟩
  | cons n ns ih =>
    simp only [convertChildrenToTipTap] at h
    cases hc : convertNodeToTipTap ({} : ConversionOptions) n with
    | some t =>
      simp only [hc] at h
      exact (List.cons_ne_nil _ _ h).elim
    | none =>
      simp only [hc] at h
      obtain ⟨h1, h2⟩ := convertNode_none n hc
      obtain ⟨h3, h4⟩ := ih h
      refine ⟨?_, ?_⟩
      · show nodeText n ++ nodesText ns = ""
        rw [h1, h3]; rfl
      · show skeleton n ++ skeletonList ns = []
        rw [h2, h4]; rfl

/-- Same for the quote-children loop. -/
theorem convertQuote_eq_nil (ns : List DocumentNode)
    (h : convertQuoteChildren ({} : ConversionOptions) ns = []) :
    nodesText ns = "" ∧ skeletonList ns = [] := by
  induction ns with
  | nil => exact ⟨rfl, rfl⟩
  | cons n ns ih =>
    simp only [convertQuoteChildren] at h
    cases hc : convertNodeToTipTap ({} : ConversionOptions) n with
    | some t =>
      simp only [hc] at h
      exact (List.cons_ne_nil _ _ h).elim
    | none =>
      simp only [hc] at h
      obtain ⟨h1, h2⟩ := convertNode_none n hc
      obtain ⟨h3, h4⟩ := ih h
      refine ⟨?_, ?_⟩
      · show nodeText n ++ nodesText ns = ""
        rw [h1, h3]; rfl
      · show skeleton n ++ skeletonList ns = []
        rw [h2, h4]; rfl

/-- Rendered text of a concatenation of AST nodes. -/
theorem nodesText_append (xs ys : List DocumentNode) :
    nodesText (xs ++ ys) = nodesText xs ++ nodesText ys := by
  induction xs with
  | nil => simp [nodesText, String.empty_append]
  | cons x xs ih => simp [nodesText, ih, String.append_assoc]

/-- Structural entries of a concatenation of AST nodes. -/
theorem skeletonList_append (xs ys : List DocumentNode) :
    skeletonList (xs ++ ys) = skeletonList xs ++ skeletonList ys := by
  induction xs with
  | nil => simp [skeletonList]
  | cons x xs ih => simp [skeletonList, ih]

mutual

/-- The forward conversion preserves the rendered text of a node. -/
theorem extractText_convert : ∀ (n : DocumentNode) (t : TipTapNode),
    convertNodeToTipTap ({} : ConversionOptions) n = some t →
    extractText t = nodeText n
  | .paragraph i v u cs, t, h => by
    simp only [convertNodeToTipTap, Option.some.injEq] at h
    subst h
    simp only [extractText, nodeText]
    rw [if_neg (by simp)]
    exact extractTextList_convert cs
  | .heading i v u level cs, t, h => by
    simp only [convertNodeToTipTap, Option.some.injEq] at h
    subst h
    simp only [extractText, nodeText]
    rw [if_neg (by simp)]
    exact extractTextList_convert cs
  | .quoteBlock i v u md cs, t, h => by
    simp only [convertNodeToTipTap, Option.some.injEq] at h
    subst h
    simp only [extractText, nodeText]
    rw [if_neg (by simp)]
    by_cases hl : (convertQuoteChildren ({} : ConversionOptions) cs).length > 0
    · rw [if_pos hl]
      exact extractTextList_convertQuote cs
    · rw [if_neg hl]
      have hnil : convertQuoteChildren ({} : ConversionOptions) cs = [] := by
        cases hq : convertQuoteChildren ({} : ConversionOptions) cs with
        | nil => rfl
        | cons a l => rw [hq] at hl; simp at hl
      rw [(convertQuote_eq_nil cs hnil).1]
      rfl
  | .textNode i v u content marks, t, h => by
    simp only [convertNodeToTipTap] at h
    by_cases hc : content = ""
    · rw [if_pos hc] at h; cases h
    · rw [if_neg hc] at h
      simp only [Option.some.injEq] at h
      subst h
      simp only [extractText, nodeText]
      rw [if_pos hc]
  | .interjection i v u content mid, t, h => by
    simp only [convertNodeToTipTap, Option.getD_none] at h
    rw [if_pos trivial] at h
    simp only [Option.some.injEq] at h
    subst h
    simp only [extractText, nodeText]
    rcases eq_or_ne content "" with hc | hc
    · subst hc; rfl
    · rw [if_pos hc]

/-- List version of `extractText_convert`, dropped children included. -/
theorem extractTextList_convert : ∀ (ns : List DocumentNode),
    extractTextList (convertChildrenToTipTap ({} : ConversionOptions) ns) =
      nodesText ns
  | [] => rfl
  | n :: ns => by
    simp only [convertChildrenToTipTap]
    cases hc : convertNodeToTipTap ({} : ConversionOptions) n with
    | none =>
      simp only [hc]
      rw [extractTextList_convert ns]
      show nodesText ns = nodeText n ++ nodesText ns
      rw [(convertNode_none n hc).1, String.empty_append]
    | some t =>
      simp only [hc]
      simp only [extractTextList]
      show extractText t ++ _ = nodeText n ++ nodesText ns
      rw [extractText_convert n t hc, extractTextList_convert ns]

/-- Quote-children version of `extractText_convert`: the paragraph wrapper
does not change the rendered text. -/
theorem extractTextList_convertQuote : ∀ (ns : List DocumentNode),
    extractTextList (convertQuoteChildren ({} : ConversionOptions) ns) =
      nodesText ns
  | [] => rfl
  | n :: ns => by
    simp only [convertQuoteChildren]
    cases hc : convertNodeToTipTap ({} : ConversionOptions) n with
    | none =>
      simp only [hc]
      rw [extractTextList_convertQuote ns]
      show nodesText ns = nodeText n ++ nodesText ns
      rw [(convertNode_none n hc).1, String.empty_append]
    | some t =>
      simp only [hc]
      simp only [extractTextList]
      show extractText _ ++ _ = nodeText n ++ nodesText ns
      rw [extractTextList_convertQuote ns]
      by_cases ht : t.type = "text"
      · rw [if_pos ht]
        show (if ("" : String) ≠ "" then "" else extractTextList [t]) ++ _ = _
        rw [if_neg (by simp)]
        show (extractText t ++ extractTextList []) ++ _ = _
        rw [extractText_convert n t hc]
        show (nodeText n ++ "") ++ _ = _
        rw [String.append_empty]
      · rw [if_neg ht]
        rw [extractText_convert n t hc]

end

/-- Round trip of a quote block's (inline) children: the rendered text is
preserved and the reconstructed children are again inline nodes. -/
theorem quoteChildren_roundtrip (fresh : Nat → String) (now : Nat) :
    ∀ (cs : List DocumentNode), inlineOnly cs = true → ∀ (c : Nat),
    nodesText (quoteChildrenFromContent fresh now
      (convertQuoteChildren ({} : ConversionOptions) cs) c).1 = nodesText cs ∧
    skeletonList (quoteChildrenFromContent fresh now
      (convertQuoteChildren ({} : ConversionOptions) cs) c).1 = [] := by
  intro cs
  induction cs with
  | nil => intro _ c; exact ⟨rfl, rfl⟩
  | cons n ns ih =>
    intro hin c
    cases n with
    | paragraph i v u cs => simp [inlineOnly] at hin
    | heading i v u level cs => simp [inlineOnly] at hin
    | quoteBlock i v u md cs => simp [inlineOnly] at hin
    | textNode i v u content marks =>
      have hin' : inlineOnly ns = true := hin
      have ihT : ∀ c', nodesText (quoteChildrenFromContent fresh now
          (convertQuoteChildren ({} : ConversionOptions) ns) c').1 =
          nodesText ns := fun c' => (ih hin' c').1
      have ihS : ∀ c', skeletonList (quoteChildrenFromContent fresh now
          (convertQuoteChildren ({} : ConversionOptions) ns) c').1 = [] :=
        fun c' => (ih hin' c').2
      by_cases hcc : content = ""
      · have hconv : convertNodeToTipTap ({} : ConversionOptions)
            (.textNode i v u content marks) = none := by
          simp [convertNodeToTipTap, hcc]
        simp only [convertQuoteChildren, hconv]
        refine ⟨?_, ihS c⟩
        rw [ihT c]
        show nodesText ns = nodeText (.textNode i v u content marks) ++ _
        rw [show nodeText (.textNode i v u content marks) = content from rfl,
          hcc, String.empty_append]
      · have hconv : convertNodeToTipTap ({} : ConversionOptions)
            (.textNode i v u content marks) =
            some (.mk "text" none [] content marks) := by
          simp [convertNodeToTipTap, hcc]
        simp only [convertQuoteChildren, hconv]
        by_cases hm : marks.any (fun m => m.type = "interjection") = true
        · constructor <;>
            simp [quoteChildrenFromContent, quoteTextChildren, hm,
              nodesText_append, skeletonList_append, ihT, ihS,
              nodesText, skeletonList, skeleton, nodeText,
              String.append_empty]
        · constructor <;>
            simp [quoteChildrenFromContent, quoteTextChildren, hm,
              nodesText_append, skeletonList_append, ihT, ihS,
              nodesText, skeletonList, skeleton, nodeText,
              String.append_empty]
    | interjection i v u content mid =>
      have hin' : inlineOnly ns = true := hin
      have ihT : ∀ c', nodesText (quoteChildrenFromContent fresh now
          (convertQuoteChildren ({} : ConversionOptions) ns) c').1 =
          nodesText ns := fun c' => (ih hin' c').1
      have ihS : ∀ c', skeletonList (quoteChildrenFromContent fresh now
          (convertQuoteChildren ({} : ConversionOptions) ns) c').1 = [] :=
        fun c' => (ih hin' c').2
      have hconv : convertNodeToTipTap ({} : ConversionOptions)
          (.interjection i v u content mid) =
          some (.mk "text" none [] content
            [{ type := "interjection"
               attrs := some [("nodeId", .str i), ("metadataId", .str mid)] }]) := by
        simp [convertNodeToTipTap]
      simp only [convertQuoteChildren, hconv]
      constructor <;>
        simp [quoteChildrenFromContent, quoteTextChildren,
          nodesText_append, skeletonList_append, ihT, ihS,
          nodesText, skeletonList, skeleton, nodeText,
          String.append_empty]

/-- A list with a convertible child converts to a non-empty editor list. -/
theorem convertChildren_ne_nil (ns : List DocumentNode)
    (h : someChildConvertible ns = true) :
    convertChildrenToTipTap ({} : ConversionOptions) ns ≠ [] := by
  induction ns with
  | nil => simp [someChildConvertible] at h
  | cons n ns ih =>
    simp only [convertChildrenToTipTap]
    cases hc : convertNodeToTipTap ({} : ConversionOptions) n with
    | some t => simp
    | none =>
      apply ih
      cases n with
      | paragraph i v u cs => simp [convertNodeToTipTap] at hc
      | heading i v u level cs => simp [convertNodeToTipTap] at hc
      | quoteBlock i v u md cs => simp [convertNodeToTipTap] at hc
      | interjection i v u content mid => simp [convertNodeToTipTap] at hc
      | textNode i v u content marks =>
        by_cases hcc : content = ""
        · subst hcc
          simpa [someChildConvertible] using h
        · simp [convertNodeToTipTap, hcc] at hc

/-- Inline nodes contribute no structural entries. -/
theorem skeletonList_inline : ∀ (cs : List DocumentNode),
    inlineOnly cs = true → skeletonList cs = []
  | [], _ => rfl
  | .textNode _ _ _ _ _ :: ns, h => by
    show skeleton (.textNode _ _ _ _ _) ++ skeletonList ns = []
    rw [skeletonList_inline ns h]
    rfl
  | .interjection _ _ _ _ _ :: ns, h => by
    show skeleton (.interjection _ _ _ _ _) ++ skeletonList ns = []
    rw [skeletonList_inline ns h]
    rfl
  | .paragraph _ _ _ _ :: ns, h => by simp [inlineOnly] at h
  | .heading _ _ _ _ _ :: ns, h => by simp [inlineOnly] at h
  | .quoteBlock _ _ _ _ _ :: ns, h => by simp [inlineOnly] at h

mutual

/-- Round trip of a single well-formed node (default options): the backward
conversion of its forward image succeeds, at any counter, and preserves the
structural entries and the rendered text. -/
theorem roundtrip_node (fresh : Nat → String) (now : Nat) :
    ∀ (n : DocumentNode), wellFormed n = true →
    ∀ (t : TipTapNode),
      convertNodeToTipTap ({} : ConversionOptions) n = some t →
    ∀ (c : Nat), ∃ n' : DocumentNode,
      (convertTipTapToNode fresh now ({} : ConversionOptions) t c).1 =
        some n' ∧
      skeleton n' = skeleton n ∧ nodeText n' = nodeText n
  | .paragraph i v u cs, hwf, t, ht, c => by
    simp only [convertNodeToTipTap, Option.some.injEq] at ht
    subst ht
    simp only [wellFormed, Bool.and_eq_true, decide_eq_true_eq] at hwf
    obtain ⟨hi, hcs⟩ := hwf
    obtain ⟨hS, hT, hE⟩ := roundtrip_children fresh now cs hcs c
    by_cases he : (convertTipTapChildren fresh now ({} : ConversionOptions)
        (convertChildrenToTipTap ({} : ConversionOptions) cs) c).1 = []
    · rcases hE with hfwd | hne
      · obtain ⟨ht1, ht2⟩ := convertChildren_eq_nil cs hfwd
        refine ⟨.paragraph i 1 now
          [.textNode (fresh (convertTipTapChildren fresh now
            ({} : ConversionOptions)
            (convertChildrenToTipTap ({} : ConversionOptions) cs) c).2)
            1 now "" []], ?_, ?_, ?_⟩
        · simp [convertTipTapToNode, idOrFresh, hi, he]
        · simp [skeleton, skeletonList, ht2]
        · simp [nodeText, nodesText, ht1]
      · exact absurd he hne
    · refine ⟨.paragraph i 1 now (convertTipTapChildren fresh now
        ({} : ConversionOptions)
        (convertChildrenToTipTap ({} : ConversionOptions) cs) c).1,
        ?_, ?_, ?_⟩
      · simp [convertTipTapToNode, idOrFresh, hi, he]
      · simp [skeleton, hS]
      · simp [nodeText, hT]
  | .heading i v u level cs, hwf, t, ht, c => by
    simp only [convertNodeToTipTap, Option.some.injEq] at ht
    subst ht
    simp only [wellFormed, Bool.and_eq_true, decide_eq_true_eq] at hwf
    obtain ⟨hi, hcs⟩ := hwf
    obtain ⟨hS, hT, hE⟩ := roundtrip_children fresh now cs hcs c
    by_cases he : (convertTipTapChildren fresh now ({} : ConversionOptions)
        (convertChildrenToTipTap ({} : ConversionOptions) cs) c).1 = []
    · rcases hE with hfwd | hne
      · obtain ⟨ht1, ht2⟩ := convertChildren_eq_nil cs hfwd
        refine ⟨.heading i 1 now (jsOrNat (some level) 1)
          [.textNode (fresh (convertTipTapChildren fresh now
            ({} : ConversionOptions)
            (convertChildrenToTipTap ({} : ConversionOptions) cs) c).2)
            1 now "" []], ?_, ?_, ?_⟩
        · simp [convertTipTapToNode, idOrFresh, hi, he]
        · simp [skeleton, skeletonList, ht2]
        · simp [nodeText, nodesText, ht1]
      · exact absurd he hne
    · refine ⟨.heading i 1 now (jsOrNat (some level) 1)
        (convertTipTapChildren fresh now ({} : ConversionOptions)
          (convertChildrenToTipTap ({} : ConversionOptions) cs) c).1,
        ?_, ?_, ?_⟩
      · simp [convertTipTapToNode, idOrFresh, hi, he]
      · simp [skeleton, hS]
      · simp [nodeText, hT]
  | .quoteBlock i v u md cs, hwf, t, ht, c => by
    simp only [convertNodeToTipTap, Option.some.injEq] at ht
    subst ht
    simp only [wellFormed, Bool.and_eq_true, decide_eq_true_eq] at hwf
    obtain ⟨hi, hcs⟩ := hwf
    by_cases hl : (convertQuoteChildren ({} : ConversionOptions) cs).length > 0
    · obtain ⟨hqT, hqS⟩ := quoteChildren_roundtrip fresh now cs hcs c
      refine ⟨.quoteBlock i 1 now
        { reference :=
            { book := jsOrStr (some md.reference.book)
                (extractBook (jsOrStr (some md.reference.normalizedReference)
                  "Unknown"))
              chapter := jsOrRat (some md.reference.chapter) 0
              verseStart :=
                match md.reference.verseStart with
                | some q => if q = 0 then none else some q
                | none => none
              verseEnd := md.reference.verseEnd
              originalText := jsOrStr (some md.reference.originalText)
                (jsOrStr (some md.reference.normalizedReference) "Unknown")
              normalizedReference :=
                jsOrStr (some md.reference.normalizedReference) "Unknown" }
          detection :=
            { confidence := jsOrRat (some md.detection.confidence) (mkRat 1 2)
              confidenceLevel := "medium"
              translation := jsOrStr (some md.detection.translation) "KJV"
              translationAutoDetected := false
              verseText := ""
              isPartMatch := false }
          interjections := []
          userVerified := jsOrBool (some md.userVerified) false }
        (quoteChildrenFromContent fresh now
          (convertQuoteChildren ({} : ConversionOptions) cs) c).1,
        ?_, ?_, ?_⟩
      · simp [convertTipTapToNode, convertTipTapBlockquote, idOrFresh, hi, hl]
      · simp [skeleton, hqS, skeletonList_inline cs hcs]
      · simp [nodeText, hqT]
    · have hnil : convertQuoteChildren ({} : ConversionOptions) cs = [] := by
        cases hq : convertQuoteChildren ({} : ConversionOptions) cs with
        | nil => rfl
        | cons a l => rw [hq] at hl; simp at hl
      obtain ⟨hq1, hq2⟩ := convertQuote_eq_nil cs hnil
      refine ⟨.quoteBlock i 1 now
        { reference :=
            { book := jsOrStr (some md.reference.book)
                (extractBook (jsOrStr (some md.reference.normalizedReference)
                  "Unknown"))
              chapter := jsOrRat (some md.reference.chapter) 0
              verseStart :=
                match md.reference.verseStart with
                | some q => if q = 0 then none else some q
                | none => none
              verseEnd := md.reference.verseEnd
              originalText := jsOrStr (some md.reference.originalText)
                (jsOrStr (some md.reference.normalizedReference) "Unknown")
              normalizedReference :=
                jsOrStr (some md.reference.normalizedReference) "Unknown" }
          detection :=
            { confidence := jsOrRat (some md.detection.confidence) (mkRat 1 2)
              confidenceLevel := "medium"
              translation := jsOrStr (some md.detection.translation) "KJV"
              translationAutoDetected := false
              verseText := ""
              isPartMatch := false }
          interjections := []
          userVerified := jsOrBool (some md.userVerified) false }
        [], ?_, ?_, ?_⟩
      · simp [convertTipTapToNode, convertTipTapBlockquote, idOrFresh, hi, hl,
          quoteChildrenFromContent, quoteTextChildren]
      · simp [skeleton, skeletonList, hq2]
      · simp [nodeText, nodesText, hq1]
  | .textNode i v u content marks, hwf, t, ht, c => by
    simp only [convertNodeToTipTap] at ht
    by_cases hcc : content = ""
    · rw [if_pos hcc] at ht; cases ht
    · rw [if_neg hcc] at ht
      simp only [Option.some.injEq] at ht
      subst ht
      by_cases hm : marks.any (fun m => m.type = "interjection") = true
      · refine ⟨.interjection
          (strOrFresh fresh (markAttrStr
            ((marks.find? fun m => m.type = "interjection").bind (·.attrs))
            "nodeId") c).1
          1 now content
          (strOrFresh fresh (markAttrStr
            ((marks.find? fun m => m.type = "interjection").bind (·.attrs))
            "metadataId")
            (strOrFresh fresh (markAttrStr
              ((marks.find? fun m => m.type = "interjection").bind (·.attrs))
              "nodeId") c).2).1,
          ?_, rfl, rfl⟩
        simp [convertTipTapToNode, convertTipTapInterjection, hm]
      · refine ⟨.textNode (fresh c) 1 now content
          (marks.filter fun m => m.type ≠ "interjection"), ?_, rfl, rfl⟩
        simp [convertTipTapToNode, idOrFresh, hm]
  | .interjection i v u content mid, hwf, t, ht, c => by
    simp only [convertNodeToTipTap, Option.getD_none] at ht
    rw [if_pos trivial] at ht
    simp only [Option.some.injEq] at ht
    subst ht
    refine ⟨.interjection (strOrFresh fresh (some i) c).1 1 now content
      (strOrFresh fresh (some mid) (strOrFresh fresh (some i) c).2).1,
      ?_, rfl, rfl⟩
    simp [convertTipTapToNode, convertTipTapInterjection, markAttrStr,
      List.lookup, List.find?]


/-- Round trip of a well-formed child list: structural entries and rendered
text are preserved, and a non-empty forward image converts back to a
non-empty list. -/
theorem roundtrip_children (fresh : Nat → String) (now : Nat) :
    ∀ (ns : List DocumentNode), wellFormedList ns = true →
    ∀ (c : Nat),
      skeletonList (convertTipTapChildren fresh now ({} : ConversionOptions)
        (convertChildrenToTipTap ({} : ConversionOptions) ns) c).1 =
        skeletonList ns ∧
      nodesText (convertTipTapChildren fresh now ({} : ConversionOptions)
        (convertChildrenToTipTap ({} : ConversionOptions) ns) c).1 =
        nodesText ns ∧
      (convertChildrenToTipTap ({} : ConversionOptions) ns = [] ∨
       (convertTipTapChildren fresh now ({} : ConversionOptions)
        (convertChildrenToTipTap ({} : ConversionOptions) ns) c).1 ≠ [])
  | [], _, c => ⟨rfl, rfl, Or.inl rfl⟩
  | n :: ns, hwf, c => by
    simp only [wellFormedList, Bool.and_eq_true] at hwf
    obtain ⟨hn, hns⟩ := hwf
    cases hc : convertNodeToTipTap ({} : ConversionOptions) n with
    | none =>
      obtain ⟨h1, h2⟩ := convertNode_none n hc
      simp only [convertChildrenToTipTap, hc]
      obtain ⟨hS, hT, hE⟩ := roundtrip_children fresh now ns hns c
      refine ⟨?_, ?_, hE⟩
      · rw [hS]
        show skeletonList ns = skeleton n ++ skeletonList ns
        rw [h2]; rfl
      · rw [hT]
        show nodesText ns = nodeText n ++ nodesText ns
        rw [h1, String.empty_append]
    | some t =>
      simp only [convertChildrenToTipTap, hc]
      obtain ⟨n', hr1, hrS, hrT⟩ := roundtrip_node fresh now n hn t hc c
      obtain ⟨hS, hT, hE⟩ := roundtrip_children fresh now ns hns
        ((convertTipTapToNode fresh now ({} : ConversionOptions) t c).2)
      simp only [convertTipTapChildren, hr1]
      refine ⟨?_, ?_, Or.inr (by simp)⟩
      · show skeleton n' ++ _ = skeletonList (n :: ns)
        simp only [skeletonList]
        rw [hrS, hS]
      · show nodeText n' ++ _ = nodesText (n :: ns)
        simp only [nodesText]
        rw [hrT, hT]

end

/-- One step of the `tipTapJsonToAst` loop on a node that matches none of
the absorb/strip/skip branches: it is converted and appended. -/
theorem processTop_step (fresh : Nat → String) (now : Nat) (t : TipTapNode)
    (rest : List TipTapNode) (st : TopLoopState)
    (h1 : ¬(t.type = "heading" ∧ (t.attrs.bind (·.level)) = some 1 ∧
      ¬ jsTruthy st.title ∧ st.isFirstNode ∧
      (t.attrs.bind (·.textAlign)) = some "center"))
    (h2 : ¬(t.type = "paragraph" ∧
      (jsStartsWith (extractText t) "Primary Reference:" ∨
       jsStartsWith (extractText t) "Primary References:")))
    (h3 : ¬(t.type = "paragraph" ∧
      (jsStartsWith (extractText t) "References from the Sermon:" ∨
       jsStartsWith (extractText t) "Tags:")))
    (h4 : ¬(t.type = "paragraph" ∧ jsStartsWith (extractText t) "Speaker:"))
    (h5 : ¬ t.type = "horizontalRule") :
    processTopNodes fresh now ({} : ConversionOptions) (t :: rest) st =
      (match (convertTipTapToNode fresh now ({} : ConversionOptions) t
          st.counter).1 with
       | some d => processTopNodes fresh now ({} : ConversionOptions) rest { st with isFirstNode := false, children := st.children ++ [d], counter := (convertTipTapToNode fresh now ({} : ConversionOptions) t st.counter).2 }
       | none => processTopNodes fresh now ({} : ConversionOptions) rest { st with isFirstNode := false, counter := (convertTipTapToNode fresh now ({} : ConversionOptions) t st.counter).2 }) := by
  simp only [processTopNodes]
  rw [if_neg h1, if_neg h2, if_neg h3, if_neg h4, if_neg h5]

/-- The `tipTapJsonToAst` loop over the forward conversion of a well-formed,
metadata-clean child list only converts and appends: it never absorbs a
title, never strips a metadata paragraph, and leaves the accumulated title,
passage and speaker untouched. -/
theorem processTop_converted (fresh : Nat → String) (now : Nat) :
    ∀ (ns : List DocumentNode), wellFormedList ns = true →
    cleanTopLevel ns = true → ∀ (st : TopLoopState),
    ∃ b : Bool, processTopNodes fresh now ({} : ConversionOptions)
        (convertChildrenToTipTap ({} : ConversionOptions) ns) st =
      { isFirstNode := b
        title := st.title
        biblePassage := st.biblePassage
        speaker := st.speaker
        children := st.children ++ (convertTipTapChildren fresh now
          ({} : ConversionOptions)
          (convertChildrenToTipTap ({} : ConversionOptions) ns) st.counter).1
        counter := (convertTipTapChildren fresh now ({} : ConversionOptions)
          (convertChildrenToTipTap ({} : ConversionOptions) ns) st.counter).2 }
    := by
  intro ns
  induction ns with
  | nil =>
    intro _ _ st
    refine ⟨st.isFirstNode, ?_⟩
    simp [processTopNodes, convertChildrenToTipTap, convertTipTapChildren]
  | cons n ns ih =>
    intro hwf hclean st
    simp only [wellFormedList, Bool.and_eq_true] at hwf
    obtain ⟨hn, hns⟩ := hwf
    simp only [cleanTopLevel, List.all_cons, Bool.and_eq_true] at hclean
    obtain ⟨hcn, hcns⟩ := hclean
    cases hc : convertNodeToTipTap ({} : ConversionOptions) n with
    | none =>
      simp only [convertChildrenToTipTap, hc]
      exact ih hns hcns st
    | some t =>
      simp only [convertChildrenToTipTap, hc]
      have hext : extractText t = nodeText n := extractText_convert n t hc
      obtain ⟨n', hr1, hrS, hrT⟩ := roundtrip_node fresh now n hn t hc
        st.counter
      have hneg : (¬(t.type = "heading" ∧ (t.attrs.bind (·.level)) = some 1 ∧
          ¬ jsTruthy st.title ∧ st.isFirstNode ∧
          (t.attrs.bind (·.textAlign)) = some "center")) ∧
          (¬(t.type = "paragraph" ∧
            (jsStartsWith (extractText t) "Primary Reference:" ∨
             jsStartsWith (extractText t) "Primary References:"))) ∧
          (¬(t.type = "paragraph" ∧
            (jsStartsWith (extractText t) "References from the Sermon:" ∨
             jsStartsWith (extractText t) "Tags:"))) ∧
          (¬(t.type = "paragraph" ∧
            jsStartsWith (extractText t) "Speaker:")) ∧
          ¬ t.type = "horizontalRule" := by
        cases n with
        | paragraph i v u cs =>
          simp only [convertNodeToTipTap, Option.some.injEq] at hc
          subst hc
          simp only [nodeText] at hext
          simp only [cleanTopLevel, metadataPrefixes, List.all_cons,
            List.all_nil, Bool.and_eq_true, decide_eq_true_eq] at hcn
          refine ⟨by simp, ?_, ?_, ?_, by simp⟩
          · rintro ⟨-, h | h⟩
            · rw [hext] at h; exact hcn.1 h
            · rw [hext] at h; exact hcn.2.1 h
          · rintro ⟨-, h | h⟩
            · rw [hext] at h; exact hcn.2.2.1 h
            · rw [hext] at h; exact hcn.2.2.2.1 h
          · rintro ⟨-, h⟩
            rw [hext] at h; exact hcn.2.2.2.2.1 h
        | heading i v u level cs =>
          simp only [convertNodeToTipTap, Option.some.injEq] at hc
          subst hc
          refine ⟨?_, by simp, by simp, by simp, by simp⟩
          rintro ⟨-, -, -, -, hta⟩
          simp at hta
        | quoteBlock i v u md cs =>
          simp only [convertNodeToTipTap, Option.some.injEq] at hc
          subst hc
          exact ⟨by simp, by simp, by simp, by simp, by simp⟩
        | textNode i v u content marks =>
          simp only [convertNodeToTipTap] at hc
          by_cases hcc : content = ""
          · rw [if_pos hcc] at hc; cases hc
          · rw [if_neg hcc] at hc
            simp only [Option.some.injEq] at hc
            subst hc
            exact ⟨by simp, by simp, by simp, by simp, by simp⟩
        | interjection i v u content mid =>
          simp only [convertNodeToTipTap, Option.getD_none] at hc
          rw [if_pos trivial] at hc
          simp only [Option.some.injEq] at hc
          subst hc
          exact ⟨by simp, by simp, by simp, by simp, by simp⟩
      obtain ⟨hg1, hg2, hg3, hg4, hg5⟩ := hneg
      rw [processTop_step fresh now t
        (convertChildrenToTipTap ({} : ConversionOptions) ns) st
        hg1 hg2 hg3 hg4 hg5]
      simp only [hr1]
      obtain ⟨b, hb⟩ := ih hns hcns { st with isFirstNode := false, children := st.children ++ [n'], counter := (convertTipTapToNode fresh now ({} : ConversionOptions) t st.counter).2 }
      refine ⟨b, ?_⟩
      rw [hb]
      simp [convertTipTapChildren, hr1, List.append_assoc]

/-- A prefix of `a` is a prefix of `a ++ b`. -/
theorem jsStartsWith_append (a b p : String) (h : jsStartsWith a p = true) :
    jsStartsWith (a ++ b) p = true := by
  simp only [jsStartsWith, List.isPrefixOf_iff_prefix, String.data_append]
    at h ⊢
  exact h.trans (List.prefix_append _ _)

/-- The synthetic centered title heading emitted by `astToTipTapJson` is
absorbed back into the title by the first step of the `tipTapJsonToAst`
loop. -/
theorem processTop_title (fresh : Nat → String) (now : Nat) (tstr : String)
    (rest : List TipTapNode) :
    processTopNodes fresh now ({} : ConversionOptions)
      (.mk "heading" (some { level := some 1, textAlign := some "center" })
        [.mk "text" none [] tstr []] "" [] :: rest) initialTopLoopState =
    processTopNodes fresh now ({} : ConversionOptions) rest
      { initialTopLoopState with title := some tstr, isFirstNode := false }
    := by
  have hext : extractText (TipTapNode.mk "heading"
      (some { level := some 1, textAlign := some "center" })
      [.mk "text" none [] tstr []] "" []) = tstr := by
    rcases eq_or_ne tstr "" with h | h
    · subst h; rfl
    · simp [extractText, extractTextList, h]
  simp only [processTopNodes]
  rw [if_pos ⟨rfl, by simp, by simp [initialTopLoopState, jsTruthy],
    by simp [initialTopLoopState], by simp⟩, hext]

/-- The `Primary Reference:` paragraph emitted by `astToTipTapJson` is
recognized by its label and folded into the passage accumulator (never into
the children) by the `tipTapJsonToAst` loop. -/
theorem processTop_passage (fresh : Nat → String) (now : Nat) (pstr : String)
    (rest : List TipTapNode) (st : TopLoopState) :
    ∃ pv : String, processTopNodes fresh now ({} : ConversionOptions)
      (.mk "paragraph" none
        [.mk "text" none [] "Primary Reference: " [{ type := "bold" }],
         .mk "text" none [] pstr []] "" [] :: rest) st =
    processTopNodes fresh now ({} : ConversionOptions) rest
      { st with isFirstNode := false, biblePassage := some pv } := by
  have hext : extractText (TipTapNode.mk "paragraph" none
      [.mk "text" none [] "Primary Reference: " [{ type := "bold" }],
       .mk "text" none [] pstr []] "" []) =
      "Primary Reference: " ++ (pstr ++ "") := by
    rcases eq_or_ne pstr "" with h | h
    · subst h; rfl
    · simp [extractText, extractTextList, h]
  have hps : jsStartsWith (extractText (TipTapNode.mk "paragraph" none
      [.mk "text" none [] "Primary Reference: " [{ type := "bold" }],
       .mk "text" none [] pstr []] "" [])) "Primary Reference:" = true := by
    rw [hext]
    exact jsStartsWith_append _ _ _ (by decide)
  simp only [processTopNodes]
  rw [if_neg (by simp), if_pos ⟨rfl, Or.inl hps⟩]
  exact ⟨_, rfl⟩

/-- Common tail of the round-trip proof: once the synthetic prelude has been
consumed, the loop over the converted children rebuilds the tree. -/
theorem C1_core (fresh : Nat → String) (now : Nat) (root : DocumentRootNode)
    (hwf : wellFormedList root.children = true)
    (hid : root.id ≠ "") (hclean : cleanTopLevel root.children = true)
    (st2 : TopLoopState) (h2c : st2.children = []) (h2n : st2.counter = 0)
    (L : List TipTapNode)
    (hL : processTopNodes fresh now ({} : ConversionOptions) L
        initialTopLoopState =
      processTopNodes fresh now ({} : ConversionOptions)
        (convertChildrenToTipTap ({} : ConversionOptions) root.children) st2) :
    (tipTapJsonToAst fresh now { content := some L } {} (some root)).success
      = true ∧
    ∃ root' : DocumentRootNode,
      (tipTapJsonToAst fresh now { content := some L } {} (some root)).data =
        some root' ∧
      root'.id = root.id ∧
      skeletonList root'.children = skeletonList root.children ∧
      nodesText root'.children = nodesText root.children := by
  obtain ⟨b, hb⟩ := processTop_converted fresh now root.children hwf hclean st2
  rw [hb] at hL
  obtain ⟨hS, hT, -⟩ := roundtrip_children fresh now root.children hwf 0
  refine ⟨rfl, ?_⟩
  simp only [tipTapJsonToAst, hL]
  refine ⟨_, rfl, ?_, ?_, ?_⟩
  · simp [jsOrStr, hid]
  · simp only [h2c, h2n, List.nil_append]
    exact hS
  · simp only [h2c, h2n, List.nil_append]
    exact hT

/-- C1 (corrected): for every well-formed `DocumentRootNode` with a
non-empty id, metadata-clean top-level paragraphs and at least one truthy
metadata field or convertible child, the round trip through
`astToTipTapJson` and `tipTapJsonToAst` (with the root as `existingRoot`
and default options) succeeds and preserves the root id, the structural
(paragraph/heading/quote-block) node tags and ids in order, and the
rendered plain text, byte for byte. -/
theorem C1_round_trip_spec (fresh : Nat → String) (now : Nat)
    (root : DocumentRootNode)
    (hwf : wellFormedList root.children = true)
    (hclean : cleanTopLevel root.children = true)
    (hid : root.id ≠ "")
    (hconv : jsTruthy root.title = true ∨ jsTruthy root.biblePassage = true ∨
      someChildConvertible root.children = true) :
    ∃ doc : TipTapDocument,
      (astToTipTapJson root {}).data = some doc ∧
      (astToTipTapJson root {}).success = true ∧
      (tipTapJsonToAst fresh now doc {} (some root)).success = true ∧
      ∃ root' : DocumentRootNode,
        (tipTapJsonToAst fresh now doc {} (some root)).data = some root' ∧
        root'.id = root.id ∧
        skeletonList root'.children = skeletonList root.children ∧
        nodesText root'.children = nodesText root.children := by
  have hchof : jsTruthy root.title = false →
      jsTruthy root.biblePassage = false →
      convertChildrenToTipTap ({} : ConversionOptions) root.children ≠ [] := by
    intro h1 h2
    apply convertChildren_ne_nil
    rcases hconv with h | h | h
    · rw [h1] at h; cases h
    · rw [h2] at h; cases h
    · exact h
  rcases hrt : root.title with _ | tstr
  · rcases hrp : root.biblePassage with _ | pstr
    · have hne := hchof (by rw [hrt]; rfl) (by rw [hrp]; rfl)
      have hdoc : astToTipTapJson root ({} : ConversionOptions) =
          { success := true, data := some { content := some (convertChildrenToTipTap ({} : ConversionOptions) root.children) }, warnings := none } := by
        simp [astToTipTapJson, hrt, hrp, List.length_eq_zero, hne]
      obtain ⟨hcs, hrest⟩ := C1_core fresh now root hwf hid hclean
        initialTopLoopState (by rfl) (by rfl)
        (convertChildrenToTipTap ({} : ConversionOptions) root.children) rfl
      exact ⟨_, by rw [hdoc], by rw [hdoc], hcs, hrest⟩
    · by_cases hpv : pstr = ""
      · subst hpv
        have hne := hchof (by rw [hrt]; rfl) (by rw [hrp]; rfl)
        have hdoc : astToTipTapJson root ({} : ConversionOptions) =
            { success := true, data := some { content := some (convertChildrenToTipTap ({} : ConversionOptions) root.children) }, warnings := none } := by
          simp [astToTipTapJson, hrt, hrp, List.length_eq_zero, hne]
        obtain ⟨hcs, hrest⟩ := C1_core fresh now root hwf hid hclean
          initialTopLoopState (by rfl) (by rfl)
          (convertChildrenToTipTap ({} : ConversionOptions) root.children) rfl
        exact ⟨_, by rw [hdoc], by rw [hdoc], hcs, hrest⟩
      · have hdoc : astToTipTapJson root ({} : ConversionOptions) =
            { success := true, data := some { content := some (TipTapNode.mk "paragraph" none [.mk "text" none [] "Primary Reference: " [{ type := "bold" }], .mk "text" none [] pstr []] "" [] :: convertChildrenToTipTap ({} : ConversionOptions) root.children) }, warnings := none } := by
          simp [astToTipTapJson, hrt, hrp, hpv]
        obtain ⟨pv, hL⟩ := processTop_passage fresh now pstr
          (convertChildrenToTipTap ({} : ConversionOptions) root.children)
          initialTopLoopState
        obtain ⟨hcs, hrest⟩ := C1_core fresh now root hwf hid hclean
          { initialTopLoopState with isFirstNode := false, biblePassage := some pv }
          (by rfl) (by rfl) _ hL
        exact ⟨_, by rw [hdoc], by rw [hdoc], hcs, hrest⟩
  · by_cases htv : tstr = ""
    · subst htv
      rcases hrp : root.biblePassage with _ | pstr
      · have hne := hchof (by rw [hrt]; rfl) (by rw [hrp]; rfl)
        have hdoc : astToTipTapJson root ({} : ConversionOptions) =
            { success := true, data := some { content := some (convertChildrenToTipTap ({} : ConversionOptions) root.children) }, warnings := none } := by
          simp [astToTipTapJson, hrt, hrp, List.length_eq_zero, hne]
        obtain ⟨hcs, hrest⟩ := C1_core fresh now root hwf hid hclean
          initialTopLoopState (by rfl) (by rfl)
          (convertChildrenToTipTap ({} : ConversionOptions) root.children) rfl
        exact ⟨_, by rw [hdoc], by rw [hdoc], hcs, hrest⟩
      · by_cases hpv : pstr = ""
        · subst hpv
          have hne := hchof (by rw [hrt]; rfl) (by rw [hrp]; rfl)
          have hdoc : astToTipTapJson root ({} : ConversionOptions) =
              { success := true, data := some { content := some (convertChildrenToTipTap ({} : ConversionOptions) root.children) }, warnings := none } := by
            simp [astToTipTapJson, hrt, hrp, List.length_eq_zero, hne]
          obtain ⟨hcs, hrest⟩ := C1_core fresh now root hwf hid hclean
            initialTopLoopState (by rfl) (by rfl)
            (convertChildrenToTipTap ({} : ConversionOptions) root.children)
            rfl
          exact ⟨_, by rw [hdoc], by rw [hdoc], hcs, hrest⟩
        · have hdoc : astToTipTapJson root ({} : ConversionOptions) =
              { success := true, data := some { content := some (TipTapNode.mk "paragraph" none [.mk "text" none [] "Primary Reference: " [{ type := "bold" }], .mk "text" none [] pstr []] "" [] :: convertChildrenToTipTap ({} : ConversionOptions) root.children) }, warnings := none } := by
            simp [astToTipTapJson, hrt, hrp, hpv]
          obtain ⟨pv, hL⟩ := processTop_passage fresh now pstr
            (convertChildrenToTipTap ({} : ConversionOptions) root.children)
            initialTopLoopState
          obtain ⟨hcs, hrest⟩ := C1_core fresh now root hwf hid hclean
            { initialTopLoopState with isFirstNode := false, biblePassage := some pv }
            (by rfl) (by rfl) _ hL
          exact ⟨_, by rw [hdoc], by rw [hdoc], hcs, hrest⟩
    · rcases hrp : root.biblePassage with _ | pstr
      · have hdoc : astToTipTapJson root ({} : ConversionOptions) =
            { success := true, data := some { content := some (TipTapNode.mk "heading" (some { level := some 1, textAlign := some "center" }) [.mk "text" none [] tstr []] "" [] :: convertChildrenToTipTap ({} : ConversionOptions) root.children) }, warnings := none } := by
          simp [astToTipTapJson, hrt, hrp, htv]
        have hL := processTop_title fresh now tstr
          (convertChildrenToTipTap ({} : ConversionOptions) root.children)
        obtain ⟨hcs, hrest⟩ := C1_core fresh now root hwf hid hclean
          { initialTopLoopState with title := some tstr, isFirstNode := false }
          (by rfl) (by rfl) _ hL
        exact ⟨_, by rw [hdoc], by rw [hdoc], hcs, hrest⟩
      · by_cases hpv : pstr = ""
        · subst hpv
          have hdoc : astToTipTapJson root ({} : ConversionOptions) =
              { success := true, data := some { content := some (TipTapNode.mk "heading" (some { level := some 1, textAlign := some "center" }) [.mk "text" none [] tstr []] "" [] :: convertChildrenToTipTap ({} : ConversionOptions) root.children) }, warnings := none } := by
            simp [astToTipTapJson, hrt, hrp, htv]
          have hL := processTop_title fresh now tstr
            (convertChildrenToTipTap ({} : ConversionOptions) root.children)
          obtain ⟨hcs, hrest⟩ := C1_core fresh now root hwf hid hclean
            { initialTopLoopState with title := some tstr, isFirstNode := false }
            (by rfl) (by rfl) _ hL
          exact ⟨_, by rw [hdoc], by rw [hdoc], hcs, hrest⟩
        · have hdoc : astToTipTapJson root ({} : ConversionOptions) =
              { success := true, data := some { content := some (TipTapNode.mk "heading" (some { level := some 1, textAlign := some "center" }) [.mk "text" none [] tstr []] "" [] :: TipTapNode.mk "paragraph" none [.mk "text" none [] "Primary Reference: " [{ type := "bold" }], .mk "text" none [] pstr []] "" [] :: convertChildrenToTipTap ({} : ConversionOptions) root.children) }, warnings := none } := by
            simp [astToTipTapJson, hrt, hrp, htv, hpv]
          have hL1 := processTop_title fresh now tstr
            (TipTapNode.mk "paragraph" none
              [.mk "text" none [] "Primary Reference: " [{ type := "bold" }],
               .mk "text" none [] pstr []] "" [] ::
             convertChildrenToTipTap ({} : ConversionOptions) root.children)
          obtain ⟨pv, hL2⟩ := processTop_passage fresh now pstr
            (convertChildrenToTipTap ({} : ConversionOptions) root.children)
            { initialTopLoopState with title := some tstr, isFirstNode := false }
          obtain ⟨hcs, hrest⟩ := C1_core fresh now root hwf hid hclean
            { initialTopLoopState with title := some tstr, isFirstNode := false, biblePassage := some pv }
            (by rfl) (by rfl) _ (hL1.trans hL2)
          exact ⟨_, by rw [hdoc], by rw [hdoc], hcs, hrest⟩

/-- C1 counterexample to the unrestricted claim: a top-level paragraph whose
text happens to start with the literal `Tags:` label is stripped by
`tipTapJsonToAst` on the way back, so the round-tripped root loses both the
paragraph (with its id) and its text. -/
theorem C1_round_trip_counterexample :
    let root : DocumentRootNode :=
      { id := "root-1", version := 1, updatedAt := 0,
        children := [.paragraph "p1" 1 0 [.textNode "t1" 1 0 "Tags: hello" []]] }
    nodesText root.children = "Tags: hello" ∧
    skeletonList root.children = [("paragraph", "p1")] ∧
    ((astToTipTapJson root {}).data.map fun doc =>
      (tipTapJsonToAst (fun _ => "node-f") 0 doc {} (some root)).data.map
        fun root' => (nodesText root'.children, skeletonList root'.children))
      = some (some ("", [])) := by
  refine ⟨rfl, rfl, ?_⟩
  decide

/-- Witness input for the corrected round-trip theorem: a root with a
title, a passage and a paragraph / heading / quote-block body. -/
theorem C1_round_trip_spec_witness :
    let root : DocumentRootNode :=
      { id := "root-1", version := 1, updatedAt := 0,
        title := some "My Sermon", biblePassage := some "John 3:16",
        children :=
          [.paragraph "p1" 1 0
            [.textNode "t1" 1 0 "Hello world. " [],
             .interjection "i1" 1 0 "Amen" "m1"],
           .heading "h1" 1 0 2 [.textNode "t2" 1 0 "Part One" []],
           .quoteBlock "q1" 1 0
             { reference :=
                 { book := "John", chapter := mkRat 3 1,
                   verseStart := some (mkRat 16 1), verseEnd := none,
                   originalText := "John 3:16",
                   normalizedReference := "John 3:16" }
               detection :=
                 { confidence := mkRat 9 10, confidenceLevel := "high",
                   translation := "KJV", translationAutoDetected := false,
                   verseText := "", isPartMatch := false }
               interjections := []
               userVerified := true }
             [.textNode "t3" 1 0 "For God so loved the world" []]] }
    wellFormedList root.children = true ∧
    cleanTopLevel root.children = true ∧
    root.id ≠ "" ∧
    ∃ doc : TipTapDocument,
      (astToTipTapJson root {}).data = some doc ∧
      (astToTipTapJson root {}).success = true ∧
      (tipTapJsonToAst (fun n => "node-" ++ toString n) 7 doc {}
        (some root)).success = true ∧
      ∃ root' : DocumentRootNode,
        (tipTapJsonToAst (fun n => "node-" ++ toString n) 7 doc {}
          (some root)).data = some root' ∧
        root'.id = root.id ∧
        skeletonList root'.children = skeletonList root.children ∧
        nodesText root'.children = nodesText root.children := by
  refine ⟨by decide, by decide, by decide, ?_⟩
  exact C1_round_trip_spec (fun n => "node-" ++ toString n) 7 _
    (by decide) (by decide) (by decide) (Or.inl (by decide))

end WhisperDesk
